import Mathlib

/-
  Verification of the toolfoundation adapter package.

  This file gives a shallow embedding of the canonical-schema data model and
  the five protocol adapters (MCP, OpenAI, Anthropic, Gemini, A2A) of the
  repository, translated from the Go source (src/adapter/*.go and the adapter
  files of src/unnamed), and proves or refutes the specification claims about
  them.

  Modelling conventions:
  - Go dynamic values (the any type) are modelled by the inductive GoVal.
    Go int and float64 are distinct dynamic types, so they are distinct
    constructors; float64 is modelled as Rat (the code only stores, compares
    for presence, and truncates these values, so exact rationals are
    faithful).
  - Go maps whose iteration order is never observed by the claims are
    modelled as association lists; lookup is goLookup (first binding wins,
    matching unique-key Go maps).
  - nil pointers and nil maps are modelled with Option.
  - Fields of Go type any that the code compares against nil
    (JSONSchema.Const, JSONSchema.Default) are modelled as GoVal with
    GoVal.null playing the role of nil, exactly as in Go where an
    unassigned any field is nil.
-/

set_option linter.unreachableTactic false
set_option linter.unusedTactic false

namespace ToolFoundation

/-- External SDK type mcp.ToolAnnotations, modelled opaquely by its fields
used in the tests of the repository (the adapter code only stores and
restores whole values of this type). -/
structure ToolAnnotations where
  title : String := ""
  readOnlyHint : Bool := false
  idempotentHint : Bool := false
  destructiveHint : Bool := false

/-- External SDK type mcp.Icon (the adapter code only stores and restores
whole values). -/
structure Icon where
  source : String := ""
  mimeType : String := ""

/-- AnthropicCacheControl for prompt caching (anthropic.go). -/
structure AnthropicCacheControl where
  type : String

/-- Go dynamic values as they occur in this package: JSON-shaped values plus
the concrete SDK types that the adapters store into SourceMeta maps.
GoVal.metaM is a value of the named Go type mcp.Meta (a map type distinct
from map[string]any for type assertions), GoVal.toolAnn a value of type
pointer to mcp.ToolAnnotations, GoVal.iconsV of type slice of mcp.Icon and
GoVal.cacheCtl of type pointer to AnthropicCacheControl. -/
inductive GoVal where
  | str (s : String)
  | int (n : Int)
  | float (q : Rat)
  | bool (b : Bool)
  | null
  | arr (xs : List GoVal)
  | strArr (xs : List String)
  | obj (m : List (String × GoVal))
  | metaM (m : List (String × GoVal))
  | toolAnn (a : ToolAnnotations)
  | iconsV (xs : List Icon)
  | cacheCtl (c : AnthropicCacheControl)

abbrev GoMap := List (String × GoVal)

/-- Go map indexing m[k]: first binding wins (Go maps have unique keys). -/
def goLookup {α : Type} (m : List (String × α)) (k : String) : Option α :=
  match m with
  | [] => none
  | (k1, v) :: t => if k = k1 then some v else goLookup t k

theorem sizeOf_goLookup {α : Type} [SizeOf α] {m : List (String × α)} {k : String} {v : α}
    (h : goLookup m k = some v) : sizeOf v < sizeOf m := by
  induction m with
  | nil => simp [goLookup] at h
  | cons a t ih =>
    cases a with
    | mk k1 v1 =>
      rw [goLookup] at h
      split at h
      · cases h; simp; omega
      · have := ih h; simp; omega

/-- Go nil test for an any-typed field (x != nil). -/
def GoVal.isNull : GoVal → Bool
  | .null => true
  | _ => false

/-- Scalar fields of the JSONSchema struct of part_005 (canonical.go).
Defaults are the Go zero values. Const and Default have Go type any and
default to nil (GoVal.null). -/
structure SchemaCore where
  type : String := ""
  title : String := ""
  description : String := ""
  pattern : String := ""
  format : String := ""
  ref : String := ""
  const : GoVal := .null
  default : GoVal := .null
  examples : List GoVal := []
  multipleOf : Option Rat := none
  minimum : Option Rat := none
  maximum : Option Rat := none
  minLength : Option Int := none
  maxLength : Option Int := none
  minItems : Option Int := none
  maxItems : Option Int := none
  minProperties : Option Int := none
  maxProperties : Option Int := none
  uniqueItems : Option Bool := none
  additionalProperties : Option Bool := none
  nullable : Option Bool := none
  deprecated : Option Bool := none
  readOnly : Option Bool := none
  writeOnly : Option Bool := none
  required : List String := []
  enum : List GoVal := []

/-- The recursive JSONSchema struct of part_005: the scalar fields are
grouped in SchemaCore, the schema-valued fields (Properties, Defs, Items,
AnyOf, OneOf, AllOf, Not) are the remaining arguments. Properties and Defs
are maps from name to schema, modelled as association lists. -/
inductive JSONSchema where
  | mk (core : SchemaCore)
       (properties : List (String × JSONSchema))
       (defs : List (String × JSONSchema))
       (items : Option JSONSchema)
       (anyOf : List JSONSchema)
       (oneOf : List JSONSchema)
       (allOf : List JSONSchema)
       (notS : Option JSONSchema)

@[simp] def JSONSchema.core : JSONSchema → SchemaCore
  | .mk c _ _ _ _ _ _ _ => c

@[simp] def JSONSchema.properties : JSONSchema → List (String × JSONSchema)
  | .mk _ p _ _ _ _ _ _ => p

@[simp] def JSONSchema.defs : JSONSchema → List (String × JSONSchema)
  | .mk _ _ d _ _ _ _ _ => d

@[simp] def JSONSchema.items : JSONSchema → Option JSONSchema
  | .mk _ _ _ i _ _ _ _ => i

@[simp] def JSONSchema.anyOf : JSONSchema → List JSONSchema
  | .mk _ _ _ _ a _ _ _ => a

@[simp] def JSONSchema.oneOf : JSONSchema → List JSONSchema
  | .mk _ _ _ _ _ o _ _ => o

@[simp] def JSONSchema.allOf : JSONSchema → List JSONSchema
  | .mk _ _ _ _ _ _ a _ => a

@[simp] def JSONSchema.notS : JSONSchema → Option JSONSchema
  | .mk _ _ _ _ _ _ _ n => n

/-- Go int(f) conversion of a float64: truncation toward zero. -/
def goTruncInt (q : Rat) : Int :=
  if 0 ≤ q then ⌊q⌋ else ⌈q⌉

set_option maxHeartbeats 1600000 in
/-- schemaFromMap (mcp.go lines 202-328), the branch for a non-nil map; the
nil-map case is handled by the Option-taking wrapper schemaFromMap below.
Each clause mirrors one type-asserted read of the Go function, in source
order. Keywords the Go function never reads (title, examples, multipleOf,
minItems, maxItems, minProperties, maxProperties, uniqueItems, nullable,
deprecated, readOnly, writeOnly) are never set and keep their zero values. -/
def schemaFromMapCore (m : GoMap) : JSONSchema :=
  let core : SchemaCore :=
    { type := match goLookup m "type" with | some (.str v) => v | _ => ""
      description := match goLookup m "description" with | some (.str v) => v | _ => ""
      pattern := match goLookup m "pattern" with | some (.str v) => v | _ => ""
      format := match goLookup m "format" with | some (.str v) => v | _ => ""
      ref := match goLookup m "$ref" with | some (.str v) => v | _ => ""
      const := match goLookup m "const" with | some v => v | none => .null
      default := match goLookup m "default" with | some v => v | none => .null
      minimum := match goLookup m "minimum" with | some (.float v) => some v | _ => none
      maximum := match goLookup m "maximum" with | some (.float v) => some v | _ => none
      minLength := match goLookup m "minLength" with | some (.float v) => some (goTruncInt v) | _ => none
      maxLength := match goLookup m "maxLength" with | some (.float v) => some (goTruncInt v) | _ => none
      additionalProperties := match goLookup m "additionalProperties" with | some (.bool v) => some v | _ => none
      required := match goLookup m "required" with
        | some (.strArr v) => v
        | some (.arr v) => v.filterMap (fun x => match x with | .str s => some s | _ => none)
        | _ => []
      enum := match goLookup m "enum" with | some (.arr v) => v | _ => [] }
  let properties : List (String × JSONSchema) :=
    match h : goLookup m "properties" with
    | some (.obj v) =>
      v.attach.filterMap (fun x =>
        match hx : x.1.2 with
        | .obj propMap => some (x.1.1, schemaFromMapCore propMap)
        | _ => none)
    | _ => []
  let defs : List (String × JSONSchema) :=
    match h : goLookup m "$defs" with
    | some (.obj v) =>
      v.attach.filterMap (fun x =>
        match hx : x.1.2 with
        | .obj defMap => some (x.1.1, schemaFromMapCore defMap)
        | _ => none)
    | _ => []
  let items : Option JSONSchema :=
    match h : goLookup m "items" with
    | some (.obj v) => some (schemaFromMapCore v)
    | _ => none
  let anyOf : List JSONSchema :=
    match h : goLookup m "anyOf" with
    | some (.arr v) =>
      v.attach.filterMap (fun x =>
        match hx : x.1 with
        | .obj itemMap => some (schemaFromMapCore itemMap)
        | _ => none)
    | _ => []
  let oneOf : List JSONSchema :=
    match h : goLookup m "oneOf" with
    | some (.arr v) =>
      v.attach.filterMap (fun x =>
        match hx : x.1 with
        | .obj itemMap => some (schemaFromMapCore itemMap)
        | _ => none)
    | _ => []
  let allOf : List JSONSchema :=
    match h : goLookup m "allOf" with
    | some (.arr v) =>
      v.attach.filterMap (fun x =>
        match hx : x.1 with
        | .obj itemMap => some (schemaFromMapCore itemMap)
        | _ => none)
    | _ => []
  let notS : Option JSONSchema :=
    match h : goLookup m "not" with
    | some (.obj v) => some (schemaFromMapCore v)
    | _ => none
  .mk core properties defs items anyOf oneOf allOf notS
termination_by sizeOf m
decreasing_by
  all_goals first
    | (obtain ⟨⟨k1, v1⟩, hmem⟩ := x
       have h1 := List.sizeOf_lt_of_mem hmem
       have h2 := sizeOf_goLookup h
       simp at hx
       subst hx
       simp at h1 h2 ⊢
       omega)
    | (obtain ⟨v1, hmem⟩ := x
       have h1 := List.sizeOf_lt_of_mem hmem
       have h2 := sizeOf_goLookup h
       subst hx
       simp at h1 h2 ⊢
       omega)
    | (have h2 := sizeOf_goLookup h
       simp at h2 ⊢
       omega)

/-- schemaFromMap on a possibly-nil map: nil gives a nil schema pointer. -/
def schemaFromMap : Option GoMap → Option JSONSchema
  | none => none
  | some m => some (schemaFromMapCore m)

/-- Scalar-keyword part of ToMap (part_005 lines 398-484): a keyword appears
iff the field is present and non-zero, with the exact emission conditions of
the Go method. Required is emitted as a Go string slice, Enum and Examples
as any slices. -/
def SchemaCore.toPairsA (c : SchemaCore) : GoMap :=
  (if c.type ≠ "" then [("type", GoVal.str c.type)] else [])
  ++ (if c.title ≠ "" then [("title", GoVal.str c.title)] else [])
  ++ (if c.description ≠ "" then [("description", GoVal.str c.description)] else [])
  ++ (if c.pattern ≠ "" then [("pattern", GoVal.str c.pattern)] else [])
  ++ (if c.format ≠ "" then [("format", GoVal.str c.format)] else [])
  ++ (if c.ref ≠ "" then [("$ref", GoVal.str c.ref)] else [])
  ++ (if c.const.isNull then [] else [("const", c.const)])
  ++ (if c.default.isNull then [] else [("default", c.default)])
  ++ (if c.examples.length > 0 then [("examples", GoVal.arr c.examples)] else [])

def SchemaCore.toPairsB (c : SchemaCore) : GoMap :=
  (match c.multipleOf with | some v => [("multipleOf", GoVal.float v)] | none => [])
  ++ (match c.minimum with | some v => [("minimum", GoVal.float v)] | none => [])
  ++ (match c.maximum with | some v => [("maximum", GoVal.float v)] | none => [])
  ++ (match c.minLength with | some v => [("minLength", GoVal.int v)] | none => [])
  ++ (match c.maxLength with | some v => [("maxLength", GoVal.int v)] | none => [])
  ++ (match c.minItems with | some v => [("minItems", GoVal.int v)] | none => [])
  ++ (match c.maxItems with | some v => [("maxItems", GoVal.int v)] | none => [])
  ++ (match c.minProperties with | some v => [("minProperties", GoVal.int v)] | none => [])
  ++ (match c.maxProperties with | some v => [("maxProperties", GoVal.int v)] | none => [])

def SchemaCore.toPairsC (c : SchemaCore) : GoMap :=
  (match c.uniqueItems with | some v => [("uniqueItems", GoVal.bool v)] | none => [])
  ++ (match c.additionalProperties with | some v => [("additionalProperties", GoVal.bool v)] | none => [])
  ++ (match c.nullable with | some v => [("nullable", GoVal.bool v)] | none => [])
  ++ (match c.deprecated with | some v => [("deprecated", GoVal.bool v)] | none => [])
  ++ (match c.readOnly with | some v => [("readOnly", GoVal.bool v)] | none => [])
  ++ (match c.writeOnly with | some v => [("writeOnly", GoVal.bool v)] | none => [])
  ++ (if c.required.length > 0 then [("required", GoVal.strArr c.required)] else [])
  ++ (if c.enum.length > 0 then [("enum", GoVal.arr c.enum)] else [])

/-- Scalar-keyword part of ToMap (part_005 lines 398-484): a keyword appears
iff the field is present and non-zero, with the exact emission conditions of
the Go method. Required is emitted as a Go string slice, Enum and Examples
as any slices. Split in three parts only to keep each definition small. -/
def SchemaCore.toPairs (c : SchemaCore) : GoMap :=
  c.toPairsA ++ c.toPairsB ++ c.toPairsC

/-- ToMap (part_005 lines 393-536): the scalar keywords via
SchemaCore.toPairs, then the recursive keywords. Nested schemas are emitted
as nested maps and combinator lists as any slices of maps, exactly as the
Go method. Keys follow the statement order of the Go method (the Go map
itself is unordered; the claims read the result only through goLookup). -/
def JSONSchema.ToMap (s : JSONSchema) : GoMap :=
  match s with
  | .mk c props dfs items any1 one1 all1 not1 =>
    c.toPairs
    ++ (if props.length > 0 then
          [("properties", GoVal.obj (props.attach.map (fun x => (x.1.1, GoVal.obj x.1.2.ToMap))))]
        else [])
    ++ (if dfs.length > 0 then
          [("$defs", GoVal.obj (dfs.attach.map (fun x => (x.1.1, GoVal.obj x.1.2.ToMap))))]
        else [])
    ++ (match items with | some i => [("items", GoVal.obj i.ToMap)] | none => [])
    ++ (if any1.length > 0 then
          [("anyOf", GoVal.arr (any1.attach.map (fun x => GoVal.obj x.1.ToMap)))]
        else [])
    ++ (if one1.length > 0 then
          [("oneOf", GoVal.arr (one1.attach.map (fun x => GoVal.obj x.1.ToMap)))]
        else [])
    ++ (if all1.length > 0 then
          [("allOf", GoVal.arr (all1.attach.map (fun x => GoVal.obj x.1.ToMap)))]
        else [])
    ++ (match not1 with | some n => [("not", GoVal.obj n.ToMap)] | none => [])
termination_by sizeOf s
decreasing_by
  all_goals first
    | (obtain ⟨⟨k1, v1⟩, hmem⟩ := x
       have h1 := List.sizeOf_lt_of_mem hmem
       simp at h1 ⊢
       omega)
    | (obtain ⟨v1, hmem⟩ := x
       have h1 := List.sizeOf_lt_of_mem hmem
       simp at h1 ⊢
       omega)
    | (simp; omega)

/-- SchemaFeature (adapter.go lines 9-66): the closed catalog of JSON Schema
keywords over which adapters declare support. The constructor notF models
FeatureNot and dflt models FeatureDefault (not and default collide with
Lean keywords in some positions); the printable names are in featureName. -/
inductive SchemaFeature where
  | ref | defs | anyOf | oneOf | allOf | notF | pattern | format
  | additionalProperties | minimum | maximum | minLength | maxLength
  | enum | const | dflt | title | examples | multipleOf
  | minItems | maxItems | minProperties | maxProperties | uniqueItems
  | nullable | deprecated | readOnly | writeOnly
deriving DecidableEq

/-- featureNames (adapter.go lines 69-98): printable keyword of a feature. -/
def featureName : SchemaFeature → String
  | .ref => "$ref"
  | .defs => "$defs"
  | .anyOf => "anyOf"
  | .oneOf => "oneOf"
  | .allOf => "allOf"
  | .notF => "not"
  | .pattern => "pattern"
  | .format => "format"
  | .additionalProperties => "additionalProperties"
  | .minimum => "minimum"
  | .maximum => "maximum"
  | .minLength => "minLength"
  | .maxLength => "maxLength"
  | .enum => "enum"
  | .const => "const"
  | .dflt => "default"
  | .title => "title"
  | .examples => "examples"
  | .multipleOf => "multipleOf"
  | .minItems => "minItems"
  | .maxItems => "maxItems"
  | .minProperties => "minProperties"
  | .maxProperties => "maxProperties"
  | .uniqueItems => "uniqueItems"
  | .nullable => "nullable"
  | .deprecated => "deprecated"
  | .readOnly => "readOnly"
  | .writeOnly => "writeOnly"

/-- AllFeatures (adapter.go lines 109-140): all features in stable order. -/
def allFeatures : List SchemaFeature :=
  [.ref, .defs, .anyOf, .oneOf, .allOf, .notF, .pattern, .format,
   .additionalProperties, .minimum, .maximum, .minLength, .maxLength,
   .enum, .const, .dflt, .title, .examples, .multipleOf,
   .minItems, .maxItems, .minProperties, .maxProperties, .uniqueItems,
   .nullable, .deprecated, .readOnly, .writeOnly]

theorem mem_allFeatures (f : SchemaFeature) : f ∈ allFeatures := by
  cases f <;> simp [allFeatures]

/-- MCPAdapter.SupportsFeature (mcp.go lines 177-180): MCP supports the full
JSON Schema 2020-12 spec. -/
def mcpSupportsFeature (_f : SchemaFeature) : Bool := true

/-- openAIFeatures and OpenAIAdapter.SupportsFeature (openai.go lines 37-69
and 172-176). The Go map is total on the catalog, so ok and supported
collapse to the map value: the features listed true in the Go map literal
are the true cases here, every feature listed false there falls to the
catch-all. -/
def openAISupportsFeature : SchemaFeature → Bool
  | .enum | .dflt | .additionalProperties | .minimum | .maximum
  | .minLength | .maxLength | .multipleOf | .minItems | .maxItems
  | .minProperties | .maxProperties | .uniqueItems | .const => true
  | _ => false

/-- anthropicFeatures and AnthropicAdapter.SupportsFeature (anthropic.go
lines 38-70 and 188-192): as OpenAI plus anyOf. -/
def anthropicSupportsFeature : SchemaFeature → Bool
  | .enum | .dflt | .additionalProperties | .minimum | .maximum
  | .minLength | .maxLength | .multipleOf | .minItems | .maxItems
  | .minProperties | .maxProperties | .uniqueItems | .const | .anyOf => true
  | _ => false

/-- geminiFeatures and GeminiAdapter.SupportsFeature (part_002 lines 34-64
and 169-173). -/
def geminiSupportsFeature : SchemaFeature → Bool
  | .ref | .defs | .anyOf | .pattern | .format | .additionalProperties
  | .minimum | .maximum | .minLength | .maxLength | .minItems | .maxItems
  | .minProperties | .maxProperties | .enum | .dflt | .title | .nullable => true
  | _ => false

/-- A2AAdapter.SupportsFeature (part_007 lines 143-145): A2A skill metadata
carries no JSON Schema. -/
def a2aSupportsFeature (_f : SchemaFeature) : Bool := false

/-- The part of the Adapter interface (adapter.go lines 151-166) that the
feature-loss walker reads: Name and SupportsFeature. -/
structure AdapterSig where
  name : String
  supportsFeature : SchemaFeature → Bool

def mcpSig : AdapterSig := { name := "mcp", supportsFeature := mcpSupportsFeature }

def openAISig : AdapterSig := { name := "openai", supportsFeature := openAISupportsFeature }

def anthropicSig : AdapterSig := { name := "anthropic", supportsFeature := anthropicSupportsFeature }

def geminiSig : AdapterSig := { name := "gemini", supportsFeature := geminiSupportsFeature }

def a2aSig : AdapterSig := { name := "a2a", supportsFeature := a2aSupportsFeature }

/-- FeatureLossWarning (adapter.go lines 192-205). -/
structure FeatureLossWarning where
  feature : SchemaFeature
  path : String
  fromAdapter : String
  toAdapter : String
deriving DecidableEq

/-- joinJSONPath (part_003 lines 221-230). -/
def joinJSONPath (base : String) (segments : List String) : String :=
  segments.foldl (fun path seg => if seg = "" then path else path ++ "/" ++ seg) base

/-- indexPath (part_003 lines 232-234). -/
def indexPath (i : Nat) : String := toString i

/-- The featureUsage table of detectSchemaFeatureLoss (part_003 lines
148-177): whether a schema node uses a feature. Const and Default have Go
type any, so used means not nil. -/
def usesFeature (s : JSONSchema) : SchemaFeature → Bool
  | .ref => s.core.ref ≠ ""
  | .defs => s.defs.length > 0
  | .anyOf => s.anyOf.length > 0
  | .oneOf => s.oneOf.length > 0
  | .allOf => s.allOf.length > 0
  | .notF => s.notS.isSome
  | .title => s.core.title ≠ ""
  | .examples => s.core.examples.length > 0
  | .multipleOf => s.core.multipleOf.isSome
  | .pattern => s.core.pattern ≠ ""
  | .format => s.core.format ≠ ""
  | .additionalProperties => s.core.additionalProperties.isSome
  | .minimum => s.core.minimum.isSome
  | .maximum => s.core.maximum.isSome
  | .minLength => s.core.minLength.isSome
  | .maxLength => s.core.maxLength.isSome
  | .minItems => s.core.minItems.isSome
  | .maxItems => s.core.maxItems.isSome
  | .minProperties => s.core.minProperties.isSome
  | .maxProperties => s.core.maxProperties.isSome
  | .uniqueItems => s.core.uniqueItems.isSome
  | .nullable => s.core.nullable.isSome
  | .deprecated => s.core.deprecated.isSome
  | .readOnly => s.core.readOnly.isSome
  | .writeOnly => s.core.writeOnly.isSome
  | .enum => s.core.enum.length > 0
  | .const => !s.core.const.isNull
  | .dflt => !s.core.default.isNull

/-- Warnings produced at a single node of the walk (part_003 lines 179-188):
one warning per used feature the target does not support. The Go code
iterates the featureUsage map in unspecified order; the embedding fixes the
stable catalog order, which the claims do not observe. -/
def nodeFeatureWarnings (s : JSONSchema) (src tgt : AdapterSig) (path : String) :
    List FeatureLossWarning :=
  (allFeatures.filter (fun f => usesFeature s f && !(tgt.supportsFeature f))).map
    (fun f => { feature := f, path := path, fromAdapter := src.name, toAdapter := tgt.name })

theorem snd_mem_of_mem_enum {α : Type} {x : Nat × α} {l : List α} (h : x ∈ l.enum) :
    x.2 ∈ l := by
  rw [List.mem_enum_iff_getElem?] at h
  exact List.getElem?_mem h

/-- detectSchemaFeatureLoss (part_003 lines 144-219): node warnings, then
recursion into properties, items, defs, anyOf, oneOf, allOf, not, in source
order, extending the JSON-Pointer path. The Go code iterates the Properties
and Defs maps in unspecified order; the embedding uses the association-list
order (the claims assert membership, never position). -/
def detectSchemaFeatureLoss (s : JSONSchema) (src tgt : AdapterSig) (path : String) :
    List FeatureLossWarning :=
  match s with
  | .mk c props dfs items any1 one1 all1 not1 =>
    nodeFeatureWarnings (.mk c props dfs items any1 one1 all1 not1) src tgt path
    ++ (props.attach.map (fun x =>
          detectSchemaFeatureLoss x.1.2 src tgt (joinJSONPath path ["properties", x.1.1]))).flatten
    ++ (match items with
        | some i => detectSchemaFeatureLoss i src tgt (joinJSONPath path ["items"])
        | none => [])
    ++ (dfs.attach.map (fun x =>
          detectSchemaFeatureLoss x.1.2 src tgt (joinJSONPath path ["$defs", x.1.1]))).flatten
    ++ (any1.enum.attach.map (fun x =>
          detectSchemaFeatureLoss x.1.2 src tgt (joinJSONPath path ["anyOf", indexPath x.1.1]))).flatten
    ++ (one1.enum.attach.map (fun x =>
          detectSchemaFeatureLoss x.1.2 src tgt (joinJSONPath path ["oneOf", indexPath x.1.1]))).flatten
    ++ (all1.enum.attach.map (fun x =>
          detectSchemaFeatureLoss x.1.2 src tgt (joinJSONPath path ["allOf", indexPath x.1.1]))).flatten
    ++ (match not1 with
        | some n => detectSchemaFeatureLoss n src tgt (joinJSONPath path ["not"])
        | none => [])
termination_by sizeOf s
decreasing_by
  all_goals first
    | (obtain ⟨⟨k1, v1⟩, hmem⟩ := x
       have h1 := List.sizeOf_lt_of_mem hmem
       simp at h1 ⊢
       omega)
    | (obtain ⟨⟨i1, v1⟩, hmem⟩ := x
       have h1 := List.sizeOf_lt_of_mem (snd_mem_of_mem_enum hmem)
       simp at h1 ⊢
       omega)
    | (simp; omega)

/-- SecurityScheme (part_005 line 87): a free-form scheme record. -/
abbrev SecurityScheme := GoMap

/-- SecurityRequirement (part_005 line 90): scheme names to scopes. -/
abbrev SecurityRequirement := List (String × List String)

/-- CanonicalTool (part_005 lines 11-83). Field defaults are the Go zero
values; nilable maps and pointers are Option. Timeout is a Go duration in
nanoseconds. -/
structure CanonicalTool where
  Namespace : String := ""
  Name : String := ""
  DisplayName : String := ""
  Version : String := ""
  Description : String := ""
  Summary : String := ""
  Category : String := ""
  Tags : List String := []
  InputModes : List String := []
  OutputModes : List String := []
  Examples : List String := []
  Deterministic : Option Bool := none
  Idempotent : Option Bool := none
  Streaming : Option Bool := none
  SecuritySchemes : List (String × SecurityScheme) := []
  SecurityRequirements : List SecurityRequirement := []
  Annotations : Option GoMap := none
  UIHints : Option GoMap := none
  InputSchema : Option JSONSchema := none
  OutputSchema : Option JSONSchema := none
  Timeout : Int := 0
  SourceFormat : String := ""
  SourceMeta : Option GoMap := none
  RequiredScopes : List String := []

/-- CanonicalTool.ID (part_005 lines 130-135). -/
def CanonicalTool.ID (t : CanonicalTool) : String :=
  if t.Namespace = "" then t.Name else t.Namespace ++ ":" ++ t.Name

/-- CanonicalTool.Validate (part_005 lines 139-147): the error message, or
none when the tool is valid. -/
def CanonicalTool.Validate (t : CanonicalTool) : Option String :=
  if t.Name = "" then some "tool name is required"
  else if t.InputSchema.isNone then some "tool input schema is required"
  else none

/-- ConversionError (adapter.go lines 169-178); Cause is the message of the
wrapped Go error. -/
structure ConversionError where
  Adapter : String
  Direction : String
  Cause : String
deriving DecidableEq

/-- canonicalDescription (helpers.go lines 3-17). -/
def canonicalDescription (ct : Option CanonicalTool) : String :=
  match ct with
  | none => ""
  | some t =>
    if t.Description ≠ "" then t.Description
    else if t.Summary ≠ "" then t.Summary
    else if t.DisplayName ≠ "" then t.DisplayName
    else ""

/-- detectFeatureLoss (part_003 lines 130-141): walk the input schema and
then the output schema, both from the root path. -/
def detectFeatureLoss (tool : CanonicalTool) (src tgt : AdapterSig) : List FeatureLossWarning :=
  (match tool.InputSchema with
   | some s => detectSchemaFeatureLoss s src tgt ""
   | none => [])
  ++ (match tool.OutputSchema with
      | some s => detectSchemaFeatureLoss s src tgt ""
      | none => [])

/-- Modelled from the spec (P6): the JSON-Pointer paths of the locations
where a schema uses a feature, listed in the tree-traversal order of the
feature-loss walk; the head of this list is the first tree-traversal
location. This is a specification-side definition used to state claims, not
a translation of repository code. -/
def featureUsePaths (f : SchemaFeature) (s : JSONSchema) (path : String) : List String :=
  match s with
  | .mk c props dfs items any1 one1 all1 not1 =>
    (if usesFeature (.mk c props dfs items any1 one1 all1 not1) f then [path] else [])
    ++ (props.attach.map (fun x =>
          featureUsePaths f x.1.2 (joinJSONPath path ["properties", x.1.1]))).flatten
    ++ (match items with
        | some i => featureUsePaths f i (joinJSONPath path ["items"])
        | none => [])
    ++ (dfs.attach.map (fun x =>
          featureUsePaths f x.1.2 (joinJSONPath path ["$defs", x.1.1]))).flatten
    ++ (any1.enum.attach.map (fun x =>
          featureUsePaths f x.1.2 (joinJSONPath path ["anyOf", indexPath x.1.1]))).flatten
    ++ (one1.enum.attach.map (fun x =>
          featureUsePaths f x.1.2 (joinJSONPath path ["oneOf", indexPath x.1.1]))).flatten
    ++ (all1.enum.attach.map (fun x =>
          featureUsePaths f x.1.2 (joinJSONPath path ["allOf", indexPath x.1.1]))).flatten
    ++ (match not1 with
        | some n => featureUsePaths f n (joinJSONPath path ["not"])
        | none => [])
termination_by sizeOf s
decreasing_by
  all_goals first
    | (obtain ⟨⟨k1, v1⟩, hmem⟩ := x
       have h1 := List.sizeOf_lt_of_mem hmem
       simp at h1 ⊢
       omega)
    | (obtain ⟨⟨i1, v1⟩, hmem⟩ := x
       have h1 := List.sizeOf_lt_of_mem (snd_mem_of_mem_enum hmem)
       simp at h1 ⊢
       omega)
    | (simp; omega)

/-- Modelled from the spec (P6): use paths of a whole tool, input schema
first and then output schema, mirroring detectFeatureLoss. -/
def toolFeatureUsePaths (f : SchemaFeature) (tool : CanonicalTool) : List String :=
  (match tool.InputSchema with
   | some s => featureUsePaths f s ""
   | none => [])
  ++ (match tool.OutputSchema with
      | some s => featureUsePaths f s ""
      | none => [])

/-- filterOpenAISchema (openai.go lines 179-266): keeps only the fields the
Go function copies (type, description, default, const, the numeric, string,
array and object bounds, uniqueItems, additionalProperties, required, enum)
and recurses through properties and items; every other field is left at its
zero value, exactly as the Go struct literal. -/
def filterOpenAISchema (s : JSONSchema) : JSONSchema :=
  match s with
  | .mk c props _dfs items _any1 _one1 _all1 _not1 =>
    .mk { type := c.type
          description := c.description
          default := c.default
          const := c.const
          multipleOf := c.multipleOf
          minimum := c.minimum
          maximum := c.maximum
          minLength := c.minLength
          maxLength := c.maxLength
          minItems := c.minItems
          maxItems := c.maxItems
          minProperties := c.minProperties
          maxProperties := c.maxProperties
          uniqueItems := c.uniqueItems
          additionalProperties := c.additionalProperties
          required := c.required
          enum := c.enum }
        (props.attach.map (fun x => (x.1.1, filterOpenAISchema x.1.2)))
        []
        (match items with | some i => some (filterOpenAISchema i) | none => none)
        [] [] [] none
termination_by sizeOf s
decreasing_by
  all_goals first
    | (obtain ⟨⟨k1, v1⟩, hmem⟩ := x
       have h1 := List.sizeOf_lt_of_mem hmem
       simp at h1 ⊢
       omega)
    | (simp; omega)

/-- filterAnthropicSchema (anthropic.go lines 195-290): as filterOpenAISchema
plus recursion through anyOf, which Anthropic supports. -/
def filterAnthropicSchema (s : JSONSchema) : JSONSchema :=
  match s with
  | .mk c props _dfs items any1 _one1 _all1 _not1 =>
    .mk { type := c.type
          description := c.description
          default := c.default
          const := c.const
          multipleOf := c.multipleOf
          minimum := c.minimum
          maximum := c.maximum
          minLength := c.minLength
          maxLength := c.maxLength
          minItems := c.minItems
          maxItems := c.maxItems
          minProperties := c.minProperties
          maxProperties := c.maxProperties
          uniqueItems := c.uniqueItems
          additionalProperties := c.additionalProperties
          required := c.required
          enum := c.enum }
        (props.attach.map (fun x => (x.1.1, filterAnthropicSchema x.1.2)))
        []
        (match items with | some i => some (filterAnthropicSchema i) | none => none)
        (any1.attach.map (fun x => filterAnthropicSchema x.1))
        [] [] none
termination_by sizeOf s
decreasing_by
  all_goals first
    | (obtain ⟨⟨k1, v1⟩, hmem⟩ := x
       have h1 := List.sizeOf_lt_of_mem hmem
       simp at h1 ⊢
       omega)
    | (obtain ⟨v1, hmem⟩ := x
       have h1 := List.sizeOf_lt_of_mem hmem
       simp at h1 ⊢
       omega)
    | (simp; omega)

/-- filterGeminiSchema (part_002 lines 176-267): keeps type, title,
description, default, pattern, format, ref, nullable, the bounds,
additionalProperties, required, enum, and recurses through properties,
items, anyOf and defs. Const, multipleOf, uniqueItems, examples, oneOf,
allOf, not and the remaining annotation flags are left at zero values. -/
def filterGeminiSchema (s : JSONSchema) : JSONSchema :=
  match s with
  | .mk c props dfs items any1 _one1 _all1 _not1 =>
    .mk { type := c.type
          title := c.title
          description := c.description
          default := c.default
          pattern := c.pattern
          format := c.format
          ref := c.ref
          nullable := c.nullable
          minimum := c.minimum
          maximum := c.maximum
          minLength := c.minLength
          maxLength := c.maxLength
          minItems := c.minItems
          maxItems := c.maxItems
          minProperties := c.minProperties
          maxProperties := c.maxProperties
          additionalProperties := c.additionalProperties
          required := c.required
          enum := c.enum }
        (props.attach.map (fun x => (x.1.1, filterGeminiSchema x.1.2)))
        (dfs.attach.map (fun x => (x.1.1, filterGeminiSchema x.1.2)))
        (match items with | some i => some (filterGeminiSchema i) | none => none)
        (any1.attach.map (fun x => filterGeminiSchema x.1))
        [] [] none
termination_by sizeOf s
decreasing_by
  all_goals first
    | (obtain ⟨⟨k1, v1⟩, hmem⟩ := x
       have h1 := List.sizeOf_lt_of_mem hmem
       simp at h1 ⊢
       omega)
    | (obtain ⟨v1, hmem⟩ := x
       have h1 := List.sizeOf_lt_of_mem hmem
       simp at h1 ⊢
       omega)
    | (simp; omega)

/-- Model of json.Marshal restricted to GoVal, used by the Anthropic lift
for its best-effort string form of input examples. String escaping and the
Go float formatting are approximated (no claim observes the encoded text);
Go also sorts object keys while this encoding keeps list order. -/
def jsonEncode : GoVal → String
  | .str s => "\"" ++ s ++ "\""
  | .int n => toString n
  | .float q => toString q
  | .bool b => if b then "true" else "false"
  | .null => "null"
  | .arr xs => "[" ++ String.intercalate "," (xs.attach.map (fun x => jsonEncode x.1)) ++ "]"
  | .strArr xs => "[" ++ String.intercalate "," (xs.map (fun s => "\"" ++ s ++ "\"")) ++ "]"
  | .obj m => "\x7b" ++ String.intercalate ","
      (m.attach.map (fun x => "\"" ++ x.1.1 ++ "\":" ++ jsonEncode x.1.2)) ++ "\x7d"
  | .metaM m => "\x7b" ++ String.intercalate ","
      (m.attach.map (fun x => "\"" ++ x.1.1 ++ "\":" ++ jsonEncode x.1.2)) ++ "\x7d"
  | .toolAnn _ => "\x7b\x7d"
  | .iconsV _ => "[]"
  | .cacheCtl c => "\x7b\"type\":\"" ++ c.type ++ "\"\x7d"
termination_by v => sizeOf v
decreasing_by
  all_goals
    (obtain ⟨v1, hmem⟩ := x
     have h1 := List.sizeOf_lt_of_mem hmem
     try rcases v1 with ⟨k1, v2⟩
     all_goals simp at h1 ⊢
     all_goals omega)

/-- Dynamic values accepted by schemaFromAny (mcp.go lines 184-199) for the
any-typed InputSchema and OutputSchema fields of mcp.Tool: nil, a JSON map,
a canonical schema by pointer or by value, or anything else (whose Go type
name is recorded for the error message). -/
inductive SchemaVal where
  | null
  | map (m : GoMap)
  | schemaRef (s : JSONSchema)
  | schemaVal (s : JSONSchema)
  | other (typeName : String)

/-- schemaFromAny (mcp.go lines 184-199). DeepCopy duplicates every cell of
the schema and is observationally the identity on the pure values of this
embedding, so the two canonical-schema branches return the schema itself.
The Go corner case of a nil map stored in the any field is not
distinguished from an empty map here. -/
def schemaFromAny : SchemaVal → Except String (Option JSONSchema)
  | .null => .ok none
  | .schemaRef s => .ok (some s)
  | .schemaVal s => .ok (some s)
  | .map m => .ok (some (schemaFromMapCore m))
  | .other t => .error ("unsupported schema type: " ++ t)

/-- Fields of the SDK type mcp.Tool that the MCP adapter reads or writes. -/
structure MCPTool where
  Name : String := ""
  Title : String := ""
  Description : String := ""
  InputSchema : SchemaVal := .null
  OutputSchema : SchemaVal := .null
  Meta : Option GoMap := none
  Annotations : Option ToolAnnotations := none
  Icons : List Icon := []

/-- model.Tool (src/model/tool.go lines 39-47): embeds mcp.Tool and adds
Namespace, Version and Tags. -/
structure ModelTool where
  tool : MCPTool := {}
  Namespace : String := ""
  Version : String := ""
  Tags : List String := []

/-- The dynamic input type of MCPAdapter.ToCanonical (mcp.go lines 27-54):
model.Tool or mcp.Tool, each by pointer or by value, nil, or any other type
(whose Go type name feeds the error message). -/
inductive MCPRaw where
  | modelToolRef (t : ModelTool)
  | modelToolVal (t : ModelTool)
  | mcpToolRef (t : MCPTool)
  | mcpToolVal (t : MCPTool)
  | null
  | other (typeName : String)

/-- Body of MCPAdapter.ToCanonical after the type switch (mcp.go lines
56-113). -/
def mcpLift (tool : ModelTool) : Except ConversionError CanonicalTool :=
  if tool.tool.Name = "" then
    .error { Adapter := "mcp", Direction := "to_canonical", Cause := "tool name is required" }
  else
    match schemaFromAny tool.tool.InputSchema with
    | .error e =>
      .error { Adapter := "mcp", Direction := "to_canonical", Cause := "invalid input schema: " ++ e }
    | .ok inputSchema =>
      match schemaFromAny tool.tool.OutputSchema with
      | .error e =>
        .error { Adapter := "mcp", Direction := "to_canonical", Cause := "invalid output schema: " ++ e }
      | .ok outputSchema =>
        let sm : GoMap :=
          (if tool.tool.Title ≠ "" then [("title", GoVal.str tool.tool.Title)] else [])
          ++ (match tool.tool.Meta with | some m => [("meta", GoVal.metaM m)] | none => [])
          ++ (match tool.tool.Annotations with
              | some a => [("annotations", GoVal.toolAnn a)] | none => [])
          ++ (if tool.tool.Icons.length > 0 then [("icons", GoVal.iconsV tool.tool.Icons)] else [])
        .ok { Namespace := tool.Namespace
              Name := tool.tool.Name
              Version := tool.Version
              Description := tool.tool.Description
              Tags := tool.Tags
              InputSchema := inputSchema
              OutputSchema := outputSchema
              SourceFormat := "mcp"
              SourceMeta := some sm }

/-- MCPAdapter.ToCanonical (mcp.go lines 28-114). The Go guard converting
only a non-nil OutputSchema is behaviourally identical to calling
schemaFromAny directly, since schemaFromAny of nil is ok nil. -/
def mcpToCanonical (raw : MCPRaw) : Except ConversionError CanonicalTool :=
  match raw with
  | .null => .error { Adapter := "mcp", Direction := "to_canonical", Cause := "input is nil" }
  | .other t =>
    .error { Adapter := "mcp", Direction := "to_canonical", Cause := "unsupported type: " ++ t }
  | .modelToolRef t => mcpLift t
  | .modelToolVal t => mcpLift t
  | .mcpToolRef t => mcpLift { tool := t }
  | .mcpToolVal t => mcpLift { tool := t }

/-- MCPAdapter.FromCanonical (mcp.go lines 117-173). -/
def mcpFromCanonical (ct : Option CanonicalTool) : Except ConversionError ModelTool :=
  match ct with
  | none =>
    .error { Adapter := "mcp", Direction := "from_canonical", Cause := "canonical tool is nil" }
  | some t =>
    if t.Name = "" then
      .error { Adapter := "mcp", Direction := "from_canonical", Cause := "tool name is required" }
    else
      let inputSchema : SchemaVal :=
        match t.InputSchema with | some s => .map s.ToMap | none => .null
      let outputSchema : SchemaVal :=
        match t.OutputSchema with | some s => .map s.ToMap | none => .null
      let title : String :=
        match t.SourceMeta with
        | some sm => match goLookup sm "title" with | some (.str v) => v | _ => ""
        | none => ""
      let meta : Option GoMap :=
        match t.SourceMeta with
        | some sm =>
          match goLookup sm "meta" with
          | some (.metaM m) => some m
          | some (.obj m) => some m
          | _ => none
        | none => none
      let ann : Option ToolAnnotations :=
        match t.SourceMeta with
        | some sm => match goLookup sm "annotations" with | some (.toolAnn a) => some a | _ => none
        | none => none
      let icons : List Icon :=
        match t.SourceMeta with
        | some sm => match goLookup sm "icons" with | some (.iconsV xs) => xs | _ => []
        | none => []
      .ok { tool := { Name := t.Name
                      Title := title
                      Description := t.Description
                      InputSchema := inputSchema
                      OutputSchema := outputSchema
                      Meta := meta
                      Annotations := ann
                      Icons := icons }
            Namespace := t.Namespace
            Version := t.Version
            Tags := t.Tags }

/-- OpenAIFunction (openai.go lines 10-15). -/
structure OpenAIFunction where
  Name : String := ""
  Description : String := ""
  Parameters : Option GoMap := none
  Strict : Option Bool := none

/-- OpenAITool (openai.go lines 18-21). -/
structure OpenAITool where
  type : String := ""
  function : OpenAIFunction := {}

/-- The dynamic input type of OpenAIAdapter.ToCanonical (openai.go lines
84-99). -/
inductive OpenAIRaw where
  | toolRef (t : OpenAITool)
  | toolVal (t : OpenAITool)
  | fnRef (f : OpenAIFunction)
  | fnVal (f : OpenAIFunction)
  | null
  | other (typeName : String)

/-- Body of OpenAIAdapter.ToCanonical after the type switch (openai.go
lines 101-125). -/
def openAILift (fn : OpenAIFunction) : Except ConversionError CanonicalTool :=
  if fn.Name = "" then
    .error { Adapter := "openai", Direction := "to_canonical", Cause := "function name is required" }
  else
    let sm : GoMap := match fn.Strict with | some b => [("strict", GoVal.bool b)] | none => []
    .ok { Name := fn.Name
          Description := fn.Description
          InputSchema := schemaFromMap fn.Parameters
          SourceFormat := "openai"
          SourceMeta := some sm }

/-- OpenAIAdapter.ToCanonical (openai.go lines 73-126). -/
def openAIToCanonical (raw : OpenAIRaw) : Except ConversionError CanonicalTool :=
  match raw with
  | .null => .error { Adapter := "openai", Direction := "to_canonical", Cause := "input is nil" }
  | .other t =>
    .error { Adapter := "openai", Direction := "to_canonical", Cause := "unsupported type: " ++ t }
  | .toolRef t => openAILift t.function
  | .toolVal t => openAILift t.function
  | .fnRef f => openAILift f
  | .fnVal f => openAILift f

/-- OpenAIAdapter.FromCanonical (openai.go lines 130-170). -/
def openAIFromCanonical (ct : Option CanonicalTool) : Except ConversionError OpenAITool :=
  match ct with
  | none =>
    .error { Adapter := "openai", Direction := "from_canonical", Cause := "canonical tool is nil" }
  | some t =>
    if t.Name = "" then
      .error { Adapter := "openai", Direction := "from_canonical", Cause := "tool name is required" }
    else
      let params : Option GoMap :=
        match t.InputSchema with
        | some s => some (filterOpenAISchema s).ToMap
        | none => some [("type", GoVal.str "object")]
      let strict : Option Bool :=
        match t.SourceMeta with
        | some sm => match goLookup sm "strict" with | some (.bool b) => some b | _ => none
        | none => none
      .ok { type := "function"
            function := { Name := t.Name
                          Description := canonicalDescription (some t)
                          Parameters := params
                          Strict := strict } }

/-- AnthropicTool (anthropic.go lines 11-17). -/
structure AnthropicTool where
  Name : String := ""
  Description : String := ""
  InputSchema : Option GoMap := none
  InputExamples : List GoVal := []
  CacheControl : Option AnthropicCacheControl := none

/-- The dynamic input type of AnthropicAdapter.ToCanonical (anthropic.go
lines 85-96). -/
inductive AnthropicRaw where
  | toolRef (t : AnthropicTool)
  | toolVal (t : AnthropicTool)
  | null
  | other (typeName : String)

/-- Body of AnthropicAdapter.ToCanonical after the type switch (anthropic.go
lines 98-133). The best-effort canonical Examples encode each input example
with jsonEncode; in Go every such Marshal of a JSON-shaped value succeeds. -/
def anthropicLift (tool : AnthropicTool) : Except ConversionError CanonicalTool :=
  if tool.Name = "" then
    .error { Adapter := "anthropic", Direction := "to_canonical", Cause := "tool name is required" }
  else
    let sm : GoMap :=
      (match tool.CacheControl with
       | some cc => [("cache_control", GoVal.cacheCtl cc)] | none => [])
      ++ (if tool.InputExamples.length > 0 then
            [("input_examples", GoVal.arr tool.InputExamples)]
          else [])
    .ok { Name := tool.Name
          Description := tool.Description
          InputSchema := schemaFromMap tool.InputSchema
          SourceFormat := "anthropic"
          SourceMeta := some sm
          Examples := tool.InputExamples.map jsonEncode }

/-- AnthropicAdapter.ToCanonical (anthropic.go lines 74-134). -/
def anthropicToCanonical (raw : AnthropicRaw) : Except ConversionError CanonicalTool :=
  match raw with
  | .null =>
    .error { Adapter := "anthropic", Direction := "to_canonical", Cause := "input is nil" }
  | .other t =>
    .error { Adapter := "anthropic", Direction := "to_canonical", Cause := "unsupported type: " ++ t }
  | .toolRef t => anthropicLift t
  | .toolVal t => anthropicLift t

/-- AnthropicAdapter.FromCanonical (anthropic.go lines 138-186). The Go
SourceMeta branch for input examples deserialized as a slice of maps is
represented by the same GoVal.arr case as the slice-of-any branch. -/
def anthropicFromCanonical (ct : Option CanonicalTool) :
    Except ConversionError AnthropicTool :=
  match ct with
  | none =>
    .error { Adapter := "anthropic", Direction := "from_canonical", Cause := "canonical tool is nil" }
  | some t =>
    if t.Name = "" then
      .error { Adapter := "anthropic", Direction := "from_canonical", Cause := "tool name is required" }
    else
      let inputSchema : Option GoMap :=
        match t.InputSchema with
        | some s => some (filterAnthropicSchema s).ToMap
        | none => some [("type", GoVal.str "object")]
      let cc : Option AnthropicCacheControl :=
        match t.SourceMeta with
        | some sm => match goLookup sm "cache_control" with | some (.cacheCtl c) => some c | _ => none
        | none => none
      let inputExamples : List GoVal :=
        match t.SourceMeta with
        | some sm => match goLookup sm "input_examples" with | some (.arr xs) => xs | _ => []
        | none => []
      .ok { Name := t.Name
            Description := canonicalDescription (some t)
            InputSchema := inputSchema
            InputExamples := inputExamples
            CacheControl := cc }

/-- GeminiFunctionDeclaration (part_002 lines 9-13). -/
structure GeminiFunctionDeclaration where
  Name : String := ""
  Description : String := ""
  Parameters : Option GoMap := none

/-- GeminiTool (part_002 lines 16-18). -/
structure GeminiTool where
  FunctionDeclarations : List GeminiFunctionDeclaration := []

/-- The dynamic input type of GeminiAdapter.ToCanonical (part_002 lines
79-108). -/
inductive GeminiRaw where
  | declRef (d : GeminiFunctionDeclaration)
  | declVal (d : GeminiFunctionDeclaration)
  | toolRef (t : GeminiTool)
  | toolVal (t : GeminiTool)
  | null
  | other (typeName : String)

/-- Body of GeminiAdapter.ToCanonical after the type switch (part_002 lines
110-131): name required, a nil parameters map replaced by an empty object
schema. -/
def geminiLift (fn : GeminiFunctionDeclaration) : Except ConversionError CanonicalTool :=
  if fn.Name = "" then
    .error { Adapter := "gemini", Direction := "to_canonical", Cause := "function name is required" }
  else
    let inputSchema : JSONSchema :=
      match schemaFromMap fn.Parameters with
      | some s => s
      | none => .mk { type := "object" } [] [] none [] [] [] none
    .ok { Name := fn.Name
          Description := fn.Description
          InputSchema := some inputSchema
          SourceFormat := "gemini"
          SourceMeta := some [] }

/-- GeminiAdapter.ToCanonical (part_002 lines 68-132): the wrapper form is
accepted only with exactly one declaration. -/
def geminiToCanonical (raw : GeminiRaw) : Except ConversionError CanonicalTool :=
  match raw with
  | .null =>
    .error { Adapter := "gemini", Direction := "to_canonical", Cause := "input is nil" }
  | .other t =>
    .error { Adapter := "gemini", Direction := "to_canonical", Cause := "unsupported type: " ++ t }
  | .declRef d => geminiLift d
  | .declVal d => geminiLift d
  | .toolRef t =>
    match t.FunctionDeclarations with
    | [d] => geminiLift d
    | _ =>
      .error { Adapter := "gemini", Direction := "to_canonical"
               Cause := "gemini tool must contain exactly one function declaration" }
  | .toolVal t =>
    match t.FunctionDeclarations with
    | [d] => geminiLift d
    | _ =>
      .error { Adapter := "gemini", Direction := "to_canonical"
               Cause := "gemini tool must contain exactly one function declaration" }

/-- GeminiAdapter.FromCanonical (part_002 lines 136-167). -/
def geminiFromCanonical (ct : Option CanonicalTool) : Except ConversionError GeminiTool :=
  match ct with
  | none =>
    .error { Adapter := "gemini", Direction := "from_canonical", Cause := "canonical tool is nil" }
  | some t =>
    if t.Name = "" then
      .error { Adapter := "gemini", Direction := "from_canonical", Cause := "tool name is required" }
    else
      let params : Option GoMap :=
        match t.InputSchema with
        | some s => some (filterGeminiSchema s).ToMap
        | none => some [("type", GoVal.str "object")]
      .ok { FunctionDeclarations :=
              [{ Name := t.Name, Description := t.Description, Parameters := params }] }

/-- A2AAgentSkill (part_007 lines 64-73). -/
structure A2AAgentSkill where
  ID : String := ""
  Name : String := ""
  Description : String := ""
  Tags : List String := []
  Examples : List String := []
  InputModes : List String := []
  OutputModes : List String := []
  SecurityRequirements : List SecurityRequirement := []

/-- The dynamic input type of A2AAdapter.ToCanonical (part_007 lines
96-113). An AgentCard input is rejected without being inspected, so the
card carries no payload here. -/
inductive A2ARaw where
  | skillRef (s : A2AAgentSkill)
  | skillVal (s : A2AAgentSkill)
  | card
  | null
  | other (typeName : String)

/-- Model of Go strings.Split on the list of characters, with separator
colon: splitting never drops segments and the empty string yields one empty
segment. -/
def splitColonChars : List Char → List (List Char)
  | [] => [[]]
  | c :: rest =>
    match splitColonChars rest with
    | [] => [[]]
    | seg :: segs => if c = ':' then [] :: seg :: segs else (c :: seg) :: segs

/-- Go strings.Split(id, colon). -/
def goSplitColon (s : String) : List String :=
  (splitColonChars s.data).map (fun cs => String.mk cs)

/-- parseA2ASkillID (part_007 lines 356-374): 1, 2 or 3 colon-separated
components give (namespace, name, version); a single segment, an empty
segment or more than 3 segments give (empty, raw id, empty). The empty
list case of the match is unreachable (a split has at least one segment)
and takes the same default branch as in Go. -/
def parseA2ASkillID (id : String) : String × String × String :=
  match goSplitColon id with
  | [_] => ("", id, "")
  | [p0, p1] => if p0 = "" ∨ p1 = "" then ("", id, "") else (p0, p1, "")
  | [p0, p1, p2] =>
    if p0 = "" ∨ p1 = "" ∨ p2 = "" then ("", id, "") else (p0, p1, p2)
  | _ => ("", id, "")

/-- canonicalFromA2ASkill (part_007 lines 289-324). -/
def canonicalFromA2ASkill (skill : Option A2AAgentSkill) :
    Except String CanonicalTool :=
  match skill with
  | none => .error "agent skill is nil"
  | some sk =>
    if sk.ID = "" then .error "agent skill id is required"
    else
      let parsed := parseA2ASkillID sk.ID
      let nspace := parsed.1
      let name0 := parsed.2.1
      let version := parsed.2.2
      let name := if name0 = "" then sk.ID else name0
      let displayName := if sk.Name = "" then name else sk.Name
      .ok { Namespace := nspace
            Name := name
            Version := version
            DisplayName := displayName
            Description := sk.Description
            Tags := sk.Tags
            InputModes := sk.InputModes
            OutputModes := sk.OutputModes
            Examples := sk.Examples
            SecurityRequirements := sk.SecurityRequirements
            InputSchema := some (.mk { type := "object" } [] [] none [] [] [] none)
            SourceFormat := "a2a"
            SourceMeta := some [("skillId", GoVal.str sk.ID)] }

/-- A2AAdapter.ToCanonical (part_007 lines 85-116). -/
def a2aToCanonical (raw : A2ARaw) : Except ConversionError CanonicalTool :=
  match raw with
  | .null => .error { Adapter := "a2a", Direction := "to_canonical", Cause := "input is nil" }
  | .card =>
    .error { Adapter := "a2a", Direction := "to_canonical"
             Cause := "agent card contains multiple skills; use ToCanonicalProvider" }
  | .other t =>
    .error { Adapter := "a2a", Direction := "to_canonical", Cause := "unsupported type: " ++ t }
  | .skillRef s =>
    match canonicalFromA2ASkill (some s) with
    | .ok ct => .ok ct
    | .error e => .error { Adapter := "a2a", Direction := "to_canonical", Cause := e }
  | .skillVal s =>
    match canonicalFromA2ASkill (some s) with
    | .ok ct => .ok ct
    | .error e => .error { Adapter := "a2a", Direction := "to_canonical", Cause := e }

/-- Go strings.Join with separator colon. -/
def goJoinColon : List String → String
  | [] => ""
  | [a] => a
  | a :: rest => a ++ ":" ++ goJoinColon rest

/-- skillIDFromCanonical (part_007 lines 376-392): the stored skillId when
present and non-empty, else the colon-joined components; with an empty
namespace the id is the bare name, whatever the version. -/
def skillIDFromCanonical (ct : Option CanonicalTool) : String :=
  match ct with
  | none => ""
  | some t =>
    let fromMeta : String :=
      match t.SourceMeta with
      | some sm => match goLookup sm "skillId" with | some (.str id) => id | _ => ""
      | none => ""
    if fromMeta ≠ "" then fromMeta
    else if t.Namespace ≠ "" ∧ t.Version ≠ "" then
      goJoinColon [t.Namespace, t.Name, t.Version]
    else if t.Namespace ≠ "" then goJoinColon [t.Namespace, t.Name]
    else t.Name

/-- a2aSkillFromCanonical (part_007 lines 326-354). -/
def a2aSkillFromCanonical (ct : Option CanonicalTool) : Except String A2AAgentSkill :=
  match ct with
  | none => .error "canonical tool is nil"
  | some t =>
    if t.Name = "" then .error "tool name is required"
    else
      let skillID := skillIDFromCanonical (some t)
      if skillID = "" then .error "skill id is required"
      else
        let name := if t.DisplayName = "" then t.Name else t.DisplayName
        .ok { ID := skillID
              Name := name
              Description := t.Description
              Tags := t.Tags
              Examples := t.Examples
              InputModes := t.InputModes
              OutputModes := t.OutputModes
              SecurityRequirements := t.SecurityRequirements }

/-- A2AAdapter.FromCanonical (part_007 lines 120-139). -/
def a2aFromCanonical (ct : Option CanonicalTool) : Except ConversionError A2AAgentSkill :=
  match ct with
  | none =>
    .error { Adapter := "a2a", Direction := "from_canonical", Cause := "canonical tool is nil" }
  | some t =>
    match a2aSkillFromCanonical (some t) with
    | .ok sk => .ok sk
    | .error e => .error { Adapter := "a2a", Direction := "from_canonical", Cause := e }

/-- The empty object schema, written by the Gemini and A2A lifts. -/
def emptyObjectSchema : JSONSchema := .mk { type := "object" } [] [] none [] [] [] none


theorem parseA2A_name_ne_empty {id : String} (h : id ≠ "") :
    (parseA2ASkillID id).2.1 ≠ "" := by
  rw [parseA2ASkillID]
  rcases hl : goSplitColon id with _ | ⟨p0, _ | ⟨p1, _ | ⟨p2, _ | ⟨p3, rest⟩⟩⟩⟩ <;>
    simp only []
  · exact h
  · exact h
  · split_ifs with hc
    · exact h
    · simp only [not_or] at hc
      exact hc.2
  · split_ifs with hc
    · exact h
    · simp only [not_or] at hc
      exact hc.2.1
  · exact h

theorem parseA2A_single_segment {id : String} {a : String} (h : goSplitColon id = [a]) :
    (parseA2ASkillID id).2.1 = id := by
  rw [parseA2ASkillID, h]

/-- C7: the A2A lift parses the skill id into namespace, name and version,
with the name defaulting to the raw id for a single segment, takes the
display name from the skill name, assigns the empty-object input schema and
stores the original id under skillId in the source meta. -/
theorem C7_a2a_skill_lift (sk : A2AAgentSkill) (h : sk.ID ≠ "") :
    ∃ ct, a2aToCanonical (.skillVal sk) = .ok ct ∧
      ct.Namespace = (parseA2ASkillID sk.ID).1 ∧
      ct.Name = (parseA2ASkillID sk.ID).2.1 ∧
      ct.Version = (parseA2ASkillID sk.ID).2.2 ∧
      (∀ a, goSplitColon sk.ID = [a] → ct.Name = sk.ID) ∧
      (sk.Name ≠ "" → ct.DisplayName = sk.Name) ∧
      ct.InputSchema = some emptyObjectSchema ∧
      (∃ sm, ct.SourceMeta = some sm ∧ goLookup sm "skillId" = some (.str sk.ID)) := by
  have hname := parseA2A_name_ne_empty h
  simp only [a2aToCanonical, canonicalFromA2ASkill, if_neg h]
  refine ⟨_, rfl, ?_, ?_, ?_, ?_, ?_, ?_, ?_⟩
  · rfl
  · exact if_neg hname
  · rfl
  · intro a ha
    exact (if_neg hname).trans (parseA2A_single_segment ha)
  · intro hn
    exact if_neg hn
  · rfl
  · exact ⟨_, rfl, rfl⟩

/-- C7 witness: the concrete skill of the specification scenario. -/
theorem C7_a2a_skill_lift_witness :
    parseA2ASkillID "tools:search:1.2.3" = ("tools", "search", "1.2.3") ∧
    ∃ ct, a2aToCanonical (.skillVal { ID := "tools:search:1.2.3", Name := "Search" }) = .ok ct ∧
      ct.Namespace = (parseA2ASkillID "tools:search:1.2.3").1 ∧
      ct.Name = (parseA2ASkillID "tools:search:1.2.3").2.1 ∧
      ct.Version = (parseA2ASkillID "tools:search:1.2.3").2.2 ∧
      (∀ a, goSplitColon "tools:search:1.2.3" = [a] → ct.Name = "tools:search:1.2.3") ∧
      (("Search" : String) ≠ "" → ct.DisplayName = "Search") ∧
      ct.InputSchema = some emptyObjectSchema ∧
      (∃ sm, ct.SourceMeta = some sm ∧
         goLookup sm "skillId" = some (.str "tools:search:1.2.3")) := by
  refine ⟨by decide, ?_⟩
  exact C7_a2a_skill_lift { ID := "tools:search:1.2.3", Name := "Search" } (by decide)

/-- C8 counterexample: a canonical tool with empty namespace and non-empty
version loses the version in the reconstructed skill id, contradicting the
claim that the version is still carried. -/
theorem C8_counterexample :
    ∃ sk, a2aFromCanonical (some { Name := "search"
                                   Version := "1.2.3"
                                   InputSchema := some emptyObjectSchema }) = .ok sk ∧
      sk.ID = "search" ∧ sk.ID ≠ "search:1.2.3" ∧ sk.ID ≠ ":search:1.2.3" := by
  exact ⟨_, rfl, rfl, by decide, by decide⟩

/-- C8 amended: the emitted skill id equals the stored skillId when that is
a non-empty string; otherwise it is namespace colon name colon version when
both namespace and version are non-empty, namespace colon name when only
the namespace is non-empty, and the bare name when the namespace is empty,
in which case a non-empty version is dropped. -/
theorem C8_skill_id_amended (t : CanonicalTool) (hn : t.Name ≠ "") :
    (∀ sm id, t.SourceMeta = some sm → goLookup sm "skillId" = some (.str id) → id ≠ "" →
       ∃ sk, a2aFromCanonical (some t) = .ok sk ∧ sk.ID = id) ∧
    (t.SourceMeta = none →
       ∃ sk, a2aFromCanonical (some t) = .ok sk ∧
         sk.ID = (if t.Namespace = "" then t.Name
                  else if t.Version = "" then t.Namespace ++ ":" ++ t.Name
                  else t.Namespace ++ ":" ++ t.Name ++ ":" ++ t.Version)) := by
  constructor
  · intro sm id hsm hid hne
    have hskill : skillIDFromCanonical (some t) = id := by
      simp only [skillIDFromCanonical, hsm, hid]
      simp [hne]
    simp only [a2aFromCanonical, a2aSkillFromCanonical, if_neg hn, hskill, if_neg hne]
    exact ⟨_, rfl, rfl⟩
  · intro hsm
    have hfall : skillIDFromCanonical (some t) =
        (if t.Namespace = "" then t.Name
         else if t.Version = "" then t.Namespace ++ ":" ++ t.Name
         else t.Namespace ++ ":" ++ t.Name ++ ":" ++ t.Version) := by
      simp only [skillIDFromCanonical, hsm]
      by_cases h1 : t.Namespace = ""
      · simp [h1]
      · by_cases h2 : t.Version = ""
        · simp [h1, h2, goJoinColon]
        · simp [h1, h2, goJoinColon, String.append_assoc]
    have hne2 : skillIDFromCanonical (some t) ≠ "" := by
      rw [hfall]
      split_ifs with h1 h2
      · exact hn
      · intro hcon
        have hlen := congrArg String.length hcon
        simp [String.length_append] at hlen
        exact absurd hlen.1.2 (by decide)
      · intro hcon
        have hlen := congrArg String.length hcon
        simp [String.length_append] at hlen
        exact absurd hlen.1.1.1.2 (by decide)
    simp only [a2aFromCanonical, a2aSkillFromCanonical, if_neg hn, if_neg hne2]
    exact ⟨_, rfl, hfall⟩

/-- C8 amended witness: both branches at concrete tools. -/
theorem C8_skill_id_amended_witness :
    (∃ sk, a2aFromCanonical (some { Name := "search"
                                    InputSchema := some emptyObjectSchema
                                    SourceMeta := some [("skillId", GoVal.str "custom-id")] })
         = .ok sk ∧ sk.ID = "custom-id") ∧
    (∃ sk, a2aFromCanonical (some { Name := "search"
                                    Version := "1.2.3"
                                    InputSchema := some emptyObjectSchema }) = .ok sk ∧
       sk.ID = (if ("" : String) = "" then "search"
                else if ("1.2.3" : String) = "" then "" ++ ":" ++ "search"
                else "" ++ ":" ++ "search" ++ ":" ++ "1.2.3")) := by
  constructor
  · exact (C8_skill_id_amended _ (by decide)).1 _ "custom-id" rfl rfl (by decide)
  · exact (C8_skill_id_amended _ (by decide)).2 rfl

/-- C9: the Gemini wrapper form is accepted only with exactly one
declaration; zero or several declarations give a ConversionError tagged
gemini and to canonical, one named declaration succeeds. -/
theorem C9_gemini_wrapper (t : GeminiTool) :
    (t.FunctionDeclarations.length ≠ 1 →
       geminiToCanonical (.toolVal t) =
         .error { Adapter := "gemini", Direction := "to_canonical"
                  Cause := "gemini tool must contain exactly one function declaration" } ∧
       geminiToCanonical (.toolRef t) =
         .error { Adapter := "gemini", Direction := "to_canonical"
                  Cause := "gemini tool must contain exactly one function declaration" }) ∧
    (∀ d, t.FunctionDeclarations = [d] → d.Name ≠ "" →
       ∃ ct, geminiToCanonical (.toolVal t) = .ok ct ∧
         geminiToCanonical (.toolRef t) = .ok ct) := by
  constructor
  · intro hlen
    rcases hd : t.FunctionDeclarations with _ | ⟨d, _ | ⟨d2, rest⟩⟩
    · rw [geminiToCanonical, geminiToCanonical, hd]
      exact ⟨rfl, rfl⟩
    · rw [hd] at hlen
      simp at hlen
    · rw [geminiToCanonical, geminiToCanonical, hd]
      exact ⟨rfl, rfl⟩
  · intro d hd hname
    rw [geminiToCanonical, geminiToCanonical, hd]
    simp only [geminiLift, if_neg hname]
    exact ⟨_, rfl, rfl⟩

/-- C9 witness: a two-declaration wrapper is rejected, a one-declaration
wrapper is accepted. -/
theorem C9_gemini_wrapper_witness :
    (geminiToCanonical (.toolVal { FunctionDeclarations := [{ Name := "a" }, { Name := "b" }] }) =
       .error { Adapter := "gemini", Direction := "to_canonical"
                Cause := "gemini tool must contain exactly one function declaration" }) ∧
    (∃ ct, geminiToCanonical
        (.toolVal { FunctionDeclarations := [{ Name := "a" }] }) = .ok ct) := by
  constructor
  · exact ((C9_gemini_wrapper _).1 (by decide)).1
  · obtain ⟨ct, h1, _⟩ := (C9_gemini_wrapper _).2 { Name := "a" } rfl (by decide)
    exact ⟨ct, h1⟩

/-- C10: lifting an OpenAI function or Anthropic tool with a nil parameters
map yields a canonical tool without input schema, which fails Validate,
while the Gemini lift substitutes an empty object schema. -/
theorem C10_missing_schema_lift :
    (∃ ct, openAIToCanonical (.fnVal { Name := "f" }) = .ok ct ∧
       ct.InputSchema = none ∧ ct.Validate = some "tool input schema is required") ∧
    (∃ ct, anthropicToCanonical (.toolVal { Name := "f" }) = .ok ct ∧
       ct.InputSchema = none ∧ ct.Validate = some "tool input schema is required") ∧
    (∃ ct, geminiToCanonical (.declVal { Name := "f" }) = .ok ct ∧
       ct.InputSchema = some emptyObjectSchema ∧ ct.Validate = none) := by
  exact ⟨⟨_, rfl, rfl, rfl⟩, ⟨_, rfl, rfl, rfl⟩, ⟨_, rfl, rfl, rfl⟩⟩

theorem append_colon_ne_empty (a b : String) : a ++ ":" ++ b ≠ "" := by
  intro hcon
  have hlen := congrArg String.length hcon
  simp [String.length_append] at hlen
  exact absurd hlen.1.2 (by decide)

theorem skillID_ne_empty (t : CanonicalTool) (hn : t.Name ≠ "") :
    skillIDFromCanonical (some t) ≠ "" := by
  rw [skillIDFromCanonical]
  split_ifs with h1 h2 h3
  · exact h1
  · simp only [goJoinColon]
    exact append_colon_ne_empty _ _
  · simp only [goJoinColon]
    exact append_colon_ne_empty _ _
  · exact hn

/-- C5 counterexample: the Gemini projection of a tool with empty
description and non-empty summary emits an empty description instead of
falling back to the summary. -/
theorem C5_counterexample :
    canonicalDescription (some { Name := "t"
                                 Summary := "s"
                                 InputSchema := some emptyObjectSchema }) = "s" ∧
    ∃ g d, geminiFromCanonical (some { Name := "t"
                                       Summary := "s"
                                       InputSchema := some emptyObjectSchema }) = .ok g ∧
      g.FunctionDeclarations = [d] ∧ d.Description = "" := by
  exact ⟨rfl, _, _, rfl, rfl, rfl⟩

/-- C5 amended: when the canonical description is empty, the OpenAI and
Anthropic projections fall back through summary then display name then the
empty string, while the MCP, Gemini and A2A projections copy the empty
description verbatim. -/
theorem C5_description_fallback_amended (t : CanonicalTool)
    (hd : t.Description = "") (hn : t.Name ≠ "") :
    (∃ o, openAIFromCanonical (some t) = .ok o ∧
       o.function.Description =
         (if t.Summary ≠ "" then t.Summary
          else if t.DisplayName ≠ "" then t.DisplayName else "")) ∧
    (∃ a, anthropicFromCanonical (some t) = .ok a ∧
       a.Description =
         (if t.Summary ≠ "" then t.Summary
          else if t.DisplayName ≠ "" then t.DisplayName else "")) ∧
    (∃ g d, geminiFromCanonical (some t) = .ok g ∧
       g.FunctionDeclarations = [d] ∧ d.Description = "") ∧
    (∃ m, mcpFromCanonical (some t) = .ok m ∧ m.tool.Description = "") ∧
    (∃ sk, a2aFromCanonical (some t) = .ok sk ∧ sk.Description = "") := by
  have hdesc : canonicalDescription (some t) =
      (if t.Summary ≠ "" then t.Summary
       else if t.DisplayName ≠ "" then t.DisplayName else "") := by
    simp [canonicalDescription, hd]
  refine ⟨?_, ?_, ?_, ?_, ?_⟩
  · simp only [openAIFromCanonical, if_neg hn]
    exact ⟨_, rfl, hdesc⟩
  · simp only [anthropicFromCanonical, if_neg hn]
    exact ⟨_, rfl, hdesc⟩
  · simp only [geminiFromCanonical, if_neg hn]
    exact ⟨_, _, rfl, rfl, hd⟩
  · simp only [mcpFromCanonical, if_neg hn]
    exact ⟨_, rfl, hd⟩
  · simp only [a2aFromCanonical, a2aSkillFromCanonical, if_neg hn,
               if_neg (skillID_ne_empty t hn)]
    exact ⟨_, rfl, hd⟩

/-- C5 amended witness. -/
theorem C5_description_fallback_amended_witness :
    ∃ o, openAIFromCanonical (some { Name := "t"
                                     Summary := "s"
                                     InputSchema := some emptyObjectSchema }) = .ok o ∧
      o.function.Description =
        (if ("s" : String) ≠ "" then "s"
         else if ("" : String) ≠ "" then "" else "") := by
  exact (C5_description_fallback_amended _ rfl (by decide)).1

/-- C6 counterexample: a canonical tool with a name but no input schema is
invalid by Validate, yet the OpenAI projection accepts it. -/
theorem C6_counterexample :
    ({ Name := "t" } : CanonicalTool).Validate = some "tool input schema is required" ∧
    ∃ o, openAIFromCanonical (some { Name := "t" }) = .ok o := by
  exact ⟨rfl, _, rfl⟩

/-- C6 amended: every adapter rejects a nil canonical tool and a name-less
canonical tool with a typed ConversionError, but a tool with a non-empty
name and a missing input schema is not rejected: OpenAI, Anthropic and
Gemini substitute an empty object schema and MCP emits no schema. -/
theorem C6_projection_rejection_amended (t : CanonicalTool) :
    (openAIFromCanonical none =
       .error { Adapter := "openai", Direction := "from_canonical", Cause := "canonical tool is nil" } ∧
     anthropicFromCanonical none =
       .error { Adapter := "anthropic", Direction := "from_canonical", Cause := "canonical tool is nil" } ∧
     geminiFromCanonical none =
       .error { Adapter := "gemini", Direction := "from_canonical", Cause := "canonical tool is nil" } ∧
     mcpFromCanonical none =
       .error { Adapter := "mcp", Direction := "from_canonical", Cause := "canonical tool is nil" } ∧
     a2aFromCanonical none =
       .error { Adapter := "a2a", Direction := "from_canonical", Cause := "canonical tool is nil" }) ∧
    (t.Name = "" →
       openAIFromCanonical (some t) =
         .error { Adapter := "openai", Direction := "from_canonical", Cause := "tool name is required" } ∧
       anthropicFromCanonical (some t) =
         .error { Adapter := "anthropic", Direction := "from_canonical", Cause := "tool name is required" } ∧
       geminiFromCanonical (some t) =
         .error { Adapter := "gemini", Direction := "from_canonical", Cause := "tool name is required" } ∧
       mcpFromCanonical (some t) =
         .error { Adapter := "mcp", Direction := "from_canonical", Cause := "tool name is required" } ∧
       a2aFromCanonical (some t) =
         .error { Adapter := "a2a", Direction := "from_canonical", Cause := "tool name is required" }) ∧
    (t.Name ≠ "" → t.InputSchema = none →
       (∃ o, openAIFromCanonical (some t) = .ok o ∧
          o.function.Parameters = some [("type", GoVal.str "object")]) ∧
       (∃ a, anthropicFromCanonical (some t) = .ok a ∧
          a.InputSchema = some [("type", GoVal.str "object")]) ∧
       (∃ g d, geminiFromCanonical (some t) = .ok g ∧
          g.FunctionDeclarations = [d] ∧
          d.Parameters = some [("type", GoVal.str "object")]) ∧
       (∃ m, mcpFromCanonical (some t) = .ok m ∧ m.tool.InputSchema = .null)) := by
  refine ⟨⟨rfl, rfl, rfl, rfl, rfl⟩, ?_, ?_⟩
  · intro hm
    refine ⟨?_, ?_, ?_, ?_, ?_⟩
    · simp only [openAIFromCanonical, if_pos hm]
    · simp only [anthropicFromCanonical, if_pos hm]
    · simp only [geminiFromCanonical, if_pos hm]
    · simp only [mcpFromCanonical, if_pos hm]
    · simp only [a2aFromCanonical, a2aSkillFromCanonical, if_pos hm]
  · intro hn hs
    refine ⟨?_, ?_, ?_, ?_⟩
    · simp only [openAIFromCanonical, if_neg hn, hs]
      exact ⟨_, rfl, rfl⟩
    · simp only [anthropicFromCanonical, if_neg hn, hs]
      exact ⟨_, rfl, rfl⟩
    · simp only [geminiFromCanonical, if_neg hn, hs]
      exact ⟨_, _, rfl, rfl, rfl⟩
    · simp only [mcpFromCanonical, if_neg hn, hs]
      exact ⟨_, rfl, rfl⟩

/-- C6 amended witness. -/
theorem C6_projection_rejection_amended_witness :
    openAIFromCanonical (some ({ DisplayName := "d" } : CanonicalTool)) =
      .error { Adapter := "openai", Direction := "from_canonical", Cause := "tool name is required" } ∧
    ∃ o, openAIFromCanonical (some ({ Name := "t" } : CanonicalTool)) = .ok o ∧
      o.function.Parameters = some [("type", GoVal.str "object")] := by
  constructor
  · exact ((C6_projection_rejection_amended { DisplayName := "d" }).2.1 rfl).1
  · exact ((C6_projection_rejection_amended { Name := "t" }).2.2 (by decide) rfl).1

/-- One-step characterization of the scalar fields of schemaFromMapCore,
avoiding repeated unfolding of the recursive equation. -/
theorem schemaFromMapCore_core (m : GoMap) :
    (schemaFromMapCore m).core =
      { type := match goLookup m "type" with | some (.str v) => v | _ => ""
        description := match goLookup m "description" with | some (.str v) => v | _ => ""
        pattern := match goLookup m "pattern" with | some (.str v) => v | _ => ""
        format := match goLookup m "format" with | some (.str v) => v | _ => ""
        ref := match goLookup m "$ref" with | some (.str v) => v | _ => ""
        const := match goLookup m "const" with | some v => v | none => .null
        default := match goLookup m "default" with | some v => v | none => .null
        minimum := match goLookup m "minimum" with | some (.float v) => some v | _ => none
        maximum := match goLookup m "maximum" with | some (.float v) => some v | _ => none
        minLength := match goLookup m "minLength" with | some (.float v) => some (goTruncInt v) | _ => none
        maxLength := match goLookup m "maxLength" with | some (.float v) => some (goTruncInt v) | _ => none
        additionalProperties := match goLookup m "additionalProperties" with | some (.bool v) => some v | _ => none
        required := match goLookup m "required" with
          | some (.strArr v) => v
          | some (.arr v) => v.filterMap (fun x => match x with | .str s => some s | _ => none)
          | _ => []
        enum := match goLookup m "enum" with | some (.arr v) => v | _ => [] } := by
  conv_lhs => rw [schemaFromMapCore]
  rfl

/-- C4 counterexample: the map lift drops the title string keyword, drops
minItems and multipleOf even as floats, and rejects an integer-typed
minLength, contradicting the claim that every known string keyword is
copied and every numeric keyword accepts integers and floats. -/
theorem C4_counterexample :
    (schemaFromMapCore [("title", GoVal.str "T"), ("minItems", GoVal.float 2),
        ("minLength", GoVal.int 5), ("multipleOf", GoVal.float 2)]).core.title = "" ∧
    (schemaFromMapCore [("title", GoVal.str "T"), ("minItems", GoVal.float 2),
        ("minLength", GoVal.int 5), ("multipleOf", GoVal.float 2)]).core.minItems = none ∧
    (schemaFromMapCore [("title", GoVal.str "T"), ("minItems", GoVal.float 2),
        ("minLength", GoVal.int 5), ("multipleOf", GoVal.float 2)]).core.multipleOf = none ∧
    (schemaFromMapCore [("title", GoVal.str "T"), ("minItems", GoVal.float 2),
        ("minLength", GoVal.int 5), ("multipleOf", GoVal.float 2)]).core.minLength = none := by
  refine ⟨?_, ?_, ?_, ?_⟩ <;> simp [schemaFromMapCore, goLookup]

/-- C4 amended: the map lift copies the string keywords type, description,
pattern, format and ref verbatim but not title; it parses minimum and
maximum only from float values and minLength and maxLength only from float
values with truncation toward zero; an integer-typed value is not accepted;
multipleOf, minItems, maxItems, minProperties and maxProperties are always
dropped along with title. -/
theorem C4_map_lift_amended (m : GoMap) :
    (∀ v, goLookup m "type" = some (.str v) → (schemaFromMapCore m).core.type = v) ∧
    (∀ v, goLookup m "description" = some (.str v) →
       (schemaFromMapCore m).core.description = v) ∧
    (∀ v, goLookup m "pattern" = some (.str v) → (schemaFromMapCore m).core.pattern = v) ∧
    (∀ v, goLookup m "format" = some (.str v) → (schemaFromMapCore m).core.format = v) ∧
    (∀ v, goLookup m "$ref" = some (.str v) → (schemaFromMapCore m).core.ref = v) ∧
    (∀ q, goLookup m "minimum" = some (.float q) →
       (schemaFromMapCore m).core.minimum = some q) ∧
    (∀ q, goLookup m "maximum" = some (.float q) →
       (schemaFromMapCore m).core.maximum = some q) ∧
    (∀ q, goLookup m "minLength" = some (.float q) →
       (schemaFromMapCore m).core.minLength = some (if 0 ≤ q then ⌊q⌋ else ⌈q⌉)) ∧
    (∀ q, goLookup m "maxLength" = some (.float q) →
       (schemaFromMapCore m).core.maxLength = some (if 0 ≤ q then ⌊q⌋ else ⌈q⌉)) ∧
    (∀ n, goLookup m "minLength" = some (.int n) →
       (schemaFromMapCore m).core.minLength = none) ∧
    (∀ n, goLookup m "minimum" = some (.int n) →
       (schemaFromMapCore m).core.minimum = none) ∧
    ((schemaFromMapCore m).core.title = "" ∧
     (schemaFromMapCore m).core.multipleOf = none ∧
     (schemaFromMapCore m).core.minItems = none ∧
     (schemaFromMapCore m).core.maxItems = none ∧
     (schemaFromMapCore m).core.minProperties = none ∧
     (schemaFromMapCore m).core.maxProperties = none ∧
     (schemaFromMapCore m).core.uniqueItems = none ∧
     (schemaFromMapCore m).core.examples = []) := by
  refine ⟨?_, ?_, ?_, ?_, ?_, ?_, ?_, ?_, ?_, ?_, ?_, ?_⟩
  · intro v h; rw [schemaFromMapCore_core]; simp [h]
  · intro v h; rw [schemaFromMapCore_core]; simp [h]
  · intro v h; rw [schemaFromMapCore_core]; simp [h]
  · intro v h; rw [schemaFromMapCore_core]; simp [h]
  · intro v h; rw [schemaFromMapCore_core]; simp [h]
  · intro q h; rw [schemaFromMapCore_core]; simp [h]
  · intro q h; rw [schemaFromMapCore_core]; simp [h]
  · intro q h; rw [schemaFromMapCore_core]; simp [h, goTruncInt]
  · intro q h; rw [schemaFromMapCore_core]; simp [h, goTruncInt]
  · intro n h; rw [schemaFromMapCore_core]; simp [h]
  · intro n h; rw [schemaFromMapCore_core]; simp [h]
  · refine ⟨?_, ?_, ?_, ?_, ?_, ?_, ?_, ?_⟩ <;> (rw [schemaFromMapCore_core]; try simp)

/-- C4 amended witness: a concrete map exercising the copied keywords, the
float truncation and the integer rejection. -/
theorem C4_map_lift_amended_witness :
    (schemaFromMapCore [("type", GoVal.str "object"), ("pattern", GoVal.str "p"),
       ("minLength", GoVal.float (5/2)), ("minimum", GoVal.int 3)]).core.type = "object" ∧
    (schemaFromMapCore [("type", GoVal.str "object"), ("pattern", GoVal.str "p"),
       ("minLength", GoVal.float (5/2)), ("minimum", GoVal.int 3)]).core.pattern = "p" ∧
    (schemaFromMapCore [("type", GoVal.str "object"), ("pattern", GoVal.str "p"),
       ("minLength", GoVal.float (5/2)), ("minimum", GoVal.int 3)]).core.minLength =
      some (if 0 ≤ (5/2 : Rat) then ⌊(5/2 : Rat)⌋ else ⌈(5/2 : Rat)⌉) ∧
    (schemaFromMapCore [("type", GoVal.str "object"), ("pattern", GoVal.str "p"),
       ("minLength", GoVal.float (5/2)), ("minimum", GoVal.int 3)]).core.minimum = none := by
  refine ⟨?_, ?_, ?_, ?_⟩
  · exact (C4_map_lift_amended _).1 "object" rfl
  · exact (C4_map_lift_amended _).2.2.1 "p" rfl
  · exact (C4_map_lift_amended _).2.2.2.2.2.2.2.1 (5/2) rfl
  · exact (C4_map_lift_amended _).2.2.2.2.2.2.2.2.2.2.1 3 rfl


theorem featureUsePaths_eq_nil (f : SchemaFeature) (c : SchemaCore)
    (props dfs : List (String × JSONSchema)) (items : Option JSONSchema)
    (any1 one1 all1 : List JSONSchema) (not1 : Option JSONSchema) (p : String)
    (h0 : usesFeature (.mk c props dfs items any1 one1 all1 not1) f = false)
    (hp : ∀ x ∈ props, featureUsePaths f x.2 (joinJSONPath p ["properties", x.1]) = [])
    (hi : ∀ i ∈ items, featureUsePaths f i (joinJSONPath p ["items"]) = [])
    (hd : ∀ x ∈ dfs, featureUsePaths f x.2 (joinJSONPath p ["$defs", x.1]) = [])
    (ha : ∀ x ∈ any1.enum, featureUsePaths f x.2 (joinJSONPath p ["anyOf", indexPath x.1]) = [])
    (ho : ∀ x ∈ one1.enum, featureUsePaths f x.2 (joinJSONPath p ["oneOf", indexPath x.1]) = [])
    (hl : ∀ x ∈ all1.enum, featureUsePaths f x.2 (joinJSONPath p ["allOf", indexPath x.1]) = [])
    (hn : ∀ n ∈ not1, featureUsePaths f n (joinJSONPath p ["not"]) = []) :
    featureUsePaths f (.mk c props dfs items any1 one1 all1 not1) p = [] := by
  cases items <;> cases not1 <;>
    simp_all [featureUsePaths, List.flatten_eq_nil_iff, List.forall_mem_map, List.mem_attach]

theorem filterOpenAI_no_unsupported (f : SchemaFeature) (hf : openAISupportsFeature f = false) :
    ∀ (s : JSONSchema) (p : String), featureUsePaths f (filterOpenAISchema s) p = []
  | .mk c props dfs items any1 one1 all1 not1, p => by
    have hrec : ∀ (x : String × JSONSchema), x ∈ props → ∀ q,
        featureUsePaths f (filterOpenAISchema x.2) q = [] :=
      fun x hx q => filterOpenAI_no_unsupported f hf x.2 q
    have hreci : ∀ i, items = some i → ∀ q,
        featureUsePaths f (filterOpenAISchema i) q = [] :=
      fun i hi q => filterOpenAI_no_unsupported f hf i q
    cases items with
    | none =>
      simp only [filterOpenAISchema]
      refine featureUsePaths_eq_nil f _ _ _ _ _ _ _ _ _ ?_ ?_ ?_ ?_ ?_ ?_ ?_ ?_
      · cases f <;> simp_all [usesFeature, openAISupportsFeature]
      · intro x hx
        rw [List.mem_map] at hx
        obtain ⟨y, hy, rfl⟩ := hx
        exact hrec y.1 y.2 _
      · intro i hi
        simp at hi
      · intro x hx
        simp at hx
      · intro x hx
        simp at hx
      · intro x hx
        simp at hx
      · intro x hx
        simp at hx
      · intro n hn
        simp at hn
    | some i =>
      simp only [filterOpenAISchema]
      refine featureUsePaths_eq_nil f _ _ _ _ _ _ _ _ _ ?_ ?_ ?_ ?_ ?_ ?_ ?_ ?_
      · cases f <;> simp_all [usesFeature, openAISupportsFeature]
      · intro x hx
        rw [List.mem_map] at hx
        obtain ⟨y, hy, rfl⟩ := hx
        exact hrec y.1 y.2 _
      · intro j hj
        simp only [Option.mem_def, Option.some.injEq] at hj
        subst hj
        exact hreci i rfl _
      · intro x hx
        simp at hx
      · intro x hx
        simp at hx
      · intro x hx
        simp at hx
      · intro x hx
        simp at hx
      · intro n hn
        simp at hn
termination_by s => sizeOf s
decreasing_by
  all_goals first
    | (have h1 := List.sizeOf_lt_of_mem hx
       cases x
       simp at h1 ⊢
       omega)
    | (subst hi
       simp
       omega)

theorem filterAnthropic_no_unsupported (f : SchemaFeature)
    (hf : anthropicSupportsFeature f = false) :
    ∀ (s : JSONSchema) (p : String), featureUsePaths f (filterAnthropicSchema s) p = []
  | .mk c props dfs items any1 one1 all1 not1, p => by
    have hrec : ∀ (x : String × JSONSchema), x ∈ props → ∀ q,
        featureUsePaths f (filterAnthropicSchema x.2) q = [] :=
      fun x hx q => filterAnthropic_no_unsupported f hf x.2 q
    have hreci : ∀ i, items = some i → ∀ q,
        featureUsePaths f (filterAnthropicSchema i) q = [] :=
      fun i hi q => filterAnthropic_no_unsupported f hf i q
    have hreca : ∀ (x : JSONSchema), x ∈ any1 → ∀ q,
        featureUsePaths f (filterAnthropicSchema x) q = [] :=
      fun x hx q => filterAnthropic_no_unsupported f hf x q
    cases items with
    | none =>
      simp only [filterAnthropicSchema]
      refine featureUsePaths_eq_nil f _ _ _ _ _ _ _ _ _ ?_ ?_ ?_ ?_ ?_ ?_ ?_ ?_
      · cases f <;> simp_all [usesFeature, anthropicSupportsFeature]
      · intro x hx
        rw [List.mem_map] at hx
        obtain ⟨y, hy, rfl⟩ := hx
        exact hrec y.1 y.2 _
      · intro i hi
        simp at hi
      · intro x hx
        simp at hx
      · intro x hx
        have hm := snd_mem_of_mem_enum hx
        rw [List.mem_map] at hm
        obtain ⟨y, hy, h2⟩ := hm
        rw [← h2]
        exact hreca y.1 y.2 _
      · intro x hx
        simp at hx
      · intro x hx
        simp at hx
      · intro n hn
        simp at hn
    | some i =>
      simp only [filterAnthropicSchema]
      refine featureUsePaths_eq_nil f _ _ _ _ _ _ _ _ _ ?_ ?_ ?_ ?_ ?_ ?_ ?_ ?_
      · cases f <;> simp_all [usesFeature, anthropicSupportsFeature]
      · intro x hx
        rw [List.mem_map] at hx
        obtain ⟨y, hy, rfl⟩ := hx
        exact hrec y.1 y.2 _
      · intro j hj
        simp only [Option.mem_def, Option.some.injEq] at hj
        subst hj
        exact hreci i rfl _
      · intro x hx
        simp at hx
      · intro x hx
        have hm := snd_mem_of_mem_enum hx
        rw [List.mem_map] at hm
        obtain ⟨y, hy, h2⟩ := hm
        rw [← h2]
        exact hreca y.1 y.2 _
      · intro x hx
        simp at hx
      · intro x hx
        simp at hx
      · intro n hn
        simp at hn
termination_by s => sizeOf s
decreasing_by
  all_goals first
    | (have h1 := List.sizeOf_lt_of_mem hx
       cases x
       simp at h1 ⊢
       omega)
    | (have h1 := List.sizeOf_lt_of_mem hx
       simp at h1 ⊢
       omega)
    | (subst hi
       simp
       omega)

theorem filterGemini_no_unsupported (f : SchemaFeature)
    (hf : geminiSupportsFeature f = false) :
    ∀ (s : JSONSchema) (p : String), featureUsePaths f (filterGeminiSchema s) p = []
  | .mk c props dfs items any1 one1 all1 not1, p => by
    have hrec : ∀ (x : String × JSONSchema), x ∈ props → ∀ q,
        featureUsePaths f (filterGeminiSchema x.2) q = [] :=
      fun x hx q => filterGemini_no_unsupported f hf x.2 q
    have hrecd : ∀ (x : String × JSONSchema), x ∈ dfs → ∀ q,
        featureUsePaths f (filterGeminiSchema x.2) q = [] :=
      fun x hx q => filterGemini_no_unsupported f hf x.2 q
    have hreci : ∀ i, items = some i → ∀ q,
        featureUsePaths f (filterGeminiSchema i) q = [] :=
      fun i hi q => filterGemini_no_unsupported f hf i q
    have hreca : ∀ (x : JSONSchema), x ∈ any1 → ∀ q,
        featureUsePaths f (filterGeminiSchema x) q = [] :=
      fun x hx q => filterGemini_no_unsupported f hf x q
    cases items with
    | none =>
      simp only [filterGeminiSchema]
      refine featureUsePaths_eq_nil f _ _ _ _ _ _ _ _ _ ?_ ?_ ?_ ?_ ?_ ?_ ?_ ?_
      · cases f <;> simp_all [usesFeature, geminiSupportsFeature, GoVal.isNull]
      · intro x hx
        rw [List.mem_map] at hx
        obtain ⟨y, hy, rfl⟩ := hx
        exact hrec y.1 y.2 _
      · intro i hi
        simp at hi
      · intro x hx
        rw [List.mem_map] at hx
        obtain ⟨y, hy, rfl⟩ := hx
        exact hrecd y.1 y.2 _
      · intro x hx
        have hm := snd_mem_of_mem_enum hx
        rw [List.mem_map] at hm
        obtain ⟨y, hy, h2⟩ := hm
        rw [← h2]
        exact hreca y.1 y.2 _
      · intro x hx
        simp at hx
      · intro x hx
        simp at hx
      · intro n hn
        simp at hn
    | some i =>
      simp only [filterGeminiSchema]
      refine featureUsePaths_eq_nil f _ _ _ _ _ _ _ _ _ ?_ ?_ ?_ ?_ ?_ ?_ ?_ ?_
      · cases f <;> simp_all [usesFeature, geminiSupportsFeature, GoVal.isNull]
      · intro x hx
        rw [List.mem_map] at hx
        obtain ⟨y, hy, rfl⟩ := hx
        exact hrec y.1 y.2 _
      · intro j hj
        simp only [Option.mem_def, Option.some.injEq] at hj
        subst hj
        exact hreci i rfl _
      · intro x hx
        rw [List.mem_map] at hx
        obtain ⟨y, hy, rfl⟩ := hx
        exact hrecd y.1 y.2 _
      · intro x hx
        have hm := snd_mem_of_mem_enum hx
        rw [List.mem_map] at hm
        obtain ⟨y, hy, h2⟩ := hm
        rw [← h2]
        exact hreca y.1 y.2 _
      · intro x hx
        simp at hx
      · intro x hx
        simp at hx
      · intro n hn
        simp at hn
termination_by s => sizeOf s
decreasing_by
  all_goals first
    | (have h1 := List.sizeOf_lt_of_mem hx
       cases x
       simp at h1 ⊢
       omega)
    | (have h1 := List.sizeOf_lt_of_mem hx
       simp at h1 ⊢
       omega)
    | (subst hi
       simp
       omega)

/-- C3: after projection through the OpenAI, Anthropic or Gemini filter,
the resulting schema uses no keyword whose feature the adapter reports
unsupported, at any depth: the list of use paths of such a feature is empty
in the filtered schema. -/
theorem C3_filtering_soundness (s : JSONSchema) (f : SchemaFeature) (p : String) :
    (openAISupportsFeature f = false → featureUsePaths f (filterOpenAISchema s) p = []) ∧
    (anthropicSupportsFeature f = false → featureUsePaths f (filterAnthropicSchema s) p = []) ∧
    (geminiSupportsFeature f = false → featureUsePaths f (filterGeminiSchema s) p = []) :=
  ⟨fun h => filterOpenAI_no_unsupported f h s p,
   fun h => filterAnthropic_no_unsupported f h s p,
   fun h => filterGemini_no_unsupported f h s p⟩

/-- C3 witness: a schema using anyOf, pattern, const and not, filtered by
each adapter, shows no unsupported keyword. -/
theorem C3_filtering_soundness_witness :
    (featureUsePaths .anyOf
      (filterOpenAISchema (.mk { pattern := "p", const := .str "c" }
        [("q", .mk {} [] [] none [.mk {} [] [] none [] [] [] none] [] [] none)] []
        none [] [] [] (some (.mk {} [] [] none [] [] [] none)))) "" = []) ∧
    (featureUsePaths .notF
      (filterAnthropicSchema (.mk { pattern := "p", const := .str "c" }
        [("q", .mk {} [] [] none [.mk {} [] [] none [] [] [] none] [] [] none)] []
        none [] [] [] (some (.mk {} [] [] none [] [] [] none)))) "" = []) ∧
    (featureUsePaths .const
      (filterGeminiSchema (.mk { pattern := "p", const := .str "c" }
        [("q", .mk {} [] [] none [.mk {} [] [] none [] [] [] none] [] [] none)] []
        none [] [] [] (some (.mk {} [] [] none [] [] [] none)))) "" = []) :=
  ⟨(C3_filtering_soundness _ .anyOf "").1 rfl,
   (C3_filtering_soundness _ .notF "").2.1 rfl,
   (C3_filtering_soundness _ .const "").2.2 rfl⟩

theorem mem_nodeFeatureWarnings (s : JSONSchema) (src tgt : AdapterSig) (p : String)
    (f : SchemaFeature) (hu : usesFeature s f = true) (hf : tgt.supportsFeature f = false) :
    ({ feature := f, path := p, fromAdapter := src.name, toAdapter := tgt.name } :
      FeatureLossWarning) ∈ nodeFeatureWarnings s src tgt p := by
  rw [nodeFeatureWarnings]
  apply List.mem_map.mpr
  refine ⟨f, ?_, rfl⟩
  apply List.mem_filter.mpr
  refine ⟨mem_allFeatures f, ?_⟩
  simp [hu, hf]

theorem detect_sound (src tgt : AdapterSig) :
    ∀ (s : JSONSchema) (p : String),
      ∀ w ∈ detectSchemaFeatureLoss s src tgt p, tgt.supportsFeature w.feature = false
  | .mk c props dfs items any1 one1 all1 not1, p => by
    intro w hw
    have hrec : ∀ x ∈ props, ∀ (p2 : String),
        ∀ w2 ∈ detectSchemaFeatureLoss x.2 src tgt p2, tgt.supportsFeature w2.feature = false :=
      fun x hx p2 => detect_sound src tgt x.2 p2
    have hrecd : ∀ x ∈ dfs, ∀ (p2 : String),
        ∀ w2 ∈ detectSchemaFeatureLoss x.2 src tgt p2, tgt.supportsFeature w2.feature = false :=
      fun x hx p2 => detect_sound src tgt x.2 p2
    have hreca : ∀ x ∈ any1, ∀ (p2 : String),
        ∀ w2 ∈ detectSchemaFeatureLoss x src tgt p2, tgt.supportsFeature w2.feature = false :=
      fun x hx p2 => detect_sound src tgt x p2
    have hreco : ∀ x ∈ one1, ∀ (p2 : String),
        ∀ w2 ∈ detectSchemaFeatureLoss x src tgt p2, tgt.supportsFeature w2.feature = false :=
      fun x hx p2 => detect_sound src tgt x p2
    have hrecl : ∀ x ∈ all1, ∀ (p2 : String),
        ∀ w2 ∈ detectSchemaFeatureLoss x src tgt p2, tgt.supportsFeature w2.feature = false :=
      fun x hx p2 => detect_sound src tgt x p2
    have hreci : ∀ i, items = some i → ∀ (p2 : String),
        ∀ w2 ∈ detectSchemaFeatureLoss i src tgt p2, tgt.supportsFeature w2.feature = false :=
      fun i hi p2 => detect_sound src tgt i p2
    have hrecn : ∀ n, not1 = some n → ∀ (p2 : String),
        ∀ w2 ∈ detectSchemaFeatureLoss n src tgt p2, tgt.supportsFeature w2.feature = false :=
      fun n hn p2 => detect_sound src tgt n p2
    cases items <;> cases not1 <;>
      (simp only [detectSchemaFeatureLoss, List.mem_append, List.mem_flatten, List.mem_map,
         List.mem_attach, nodeFeatureWarnings, List.mem_filter, true_and,
         Bool.and_eq_true, Bool.not_eq_true'] at hw
       casesm* _ ∨ _ <;>
         (rename_i hw
          first
          | (obtain ⟨f2, ⟨hmemf, hu, hsupp⟩, rfl⟩ := hw
             exact hsupp)
          | (obtain ⟨l, ⟨a, b, hab, hl⟩, hwl⟩ := hw
             rw [← hl] at hwl
             first
             | exact hrec (a, b) hab _ _ hwl
             | exact hrecd (a, b) hab _ _ hwl)
          | (obtain ⟨l, ⟨a, hl⟩, hwl⟩ := hw
             rw [← hl] at hwl
             first
             | exact hrec a.1 a.2 _ _ hwl
             | exact hrecd a.1 a.2 _ _ hwl
             | exact hreca a.1.2 (snd_mem_of_mem_enum a.2) _ _ hwl
             | exact hreco a.1.2 (snd_mem_of_mem_enum a.2) _ _ hwl
             | exact hrecl a.1.2 (snd_mem_of_mem_enum a.2) _ _ hwl)
          | exact hreci _ rfl _ _ hw
          | exact hrecn _ rfl _ _ hw
          | simp at hw))
termination_by s => sizeOf s
decreasing_by
  all_goals first
    | (have h1 := List.sizeOf_lt_of_mem hx
       first
        | (cases x
           simp at h1 ⊢
           omega)
        | (simp at h1 ⊢
           omega))
    | (subst hi
       simp
       omega)
    | (subst hn
       simp
       omega)
    | (simp
       omega)

theorem mem_ite_path {q p : String} {c : Prop} [Decidable c] :
    q ∈ (if c then [p] else ([] : List String)) ↔ c ∧ q = p := by
  split_ifs with h <;> simp [h]

theorem detect_complete (f : SchemaFeature) (src tgt : AdapterSig)
    (hf : tgt.supportsFeature f = false) :
    ∀ (s : JSONSchema) (p q : String), q ∈ featureUsePaths f s p →
      ({ feature := f, path := q, fromAdapter := src.name, toAdapter := tgt.name } :
        FeatureLossWarning) ∈ detectSchemaFeatureLoss s src tgt p
  | .mk c props dfs items any1 one1 all1 not1, p, q => by
    intro hq
    have hrec : ∀ x ∈ props, ∀ (p2 q2 : String), q2 ∈ featureUsePaths f x.2 p2 →
        ({ feature := f, path := q2, fromAdapter := src.name, toAdapter := tgt.name } :
          FeatureLossWarning) ∈ detectSchemaFeatureLoss x.2 src tgt p2 :=
      fun x hx p2 q2 => detect_complete f src tgt hf x.2 p2 q2
    have hrecd : ∀ x ∈ dfs, ∀ (p2 q2 : String), q2 ∈ featureUsePaths f x.2 p2 →
        ({ feature := f, path := q2, fromAdapter := src.name, toAdapter := tgt.name } :
          FeatureLossWarning) ∈ detectSchemaFeatureLoss x.2 src tgt p2 :=
      fun x hx p2 q2 => detect_complete f src tgt hf x.2 p2 q2
    have hreca : ∀ x ∈ any1, ∀ (p2 q2 : String), q2 ∈ featureUsePaths f x p2 →
        ({ feature := f, path := q2, fromAdapter := src.name, toAdapter := tgt.name } :
          FeatureLossWarning) ∈ detectSchemaFeatureLoss x src tgt p2 :=
      fun x hx p2 q2 => detect_complete f src tgt hf x p2 q2
    have hreco : ∀ x ∈ one1, ∀ (p2 q2 : String), q2 ∈ featureUsePaths f x p2 →
        ({ feature := f, path := q2, fromAdapter := src.name, toAdapter := tgt.name } :
          FeatureLossWarning) ∈ detectSchemaFeatureLoss x src tgt p2 :=
      fun x hx p2 q2 => detect_complete f src tgt hf x p2 q2
    have hrecl : ∀ x ∈ all1, ∀ (p2 q2 : String), q2 ∈ featureUsePaths f x p2 →
        ({ feature := f, path := q2, fromAdapter := src.name, toAdapter := tgt.name } :
          FeatureLossWarning) ∈ detectSchemaFeatureLoss x src tgt p2 :=
      fun x hx p2 q2 => detect_complete f src tgt hf x p2 q2
    have hreci : ∀ i, items = some i → ∀ (p2 q2 : String), q2 ∈ featureUsePaths f i p2 →
        ({ feature := f, path := q2, fromAdapter := src.name, toAdapter := tgt.name } :
          FeatureLossWarning) ∈ detectSchemaFeatureLoss i src tgt p2 :=
      fun i hi p2 q2 => detect_complete f src tgt hf i p2 q2
    have hrecn : ∀ n, not1 = some n → ∀ (p2 q2 : String), q2 ∈ featureUsePaths f n p2 →
        ({ feature := f, path := q2, fromAdapter := src.name, toAdapter := tgt.name } :
          FeatureLossWarning) ∈ detectSchemaFeatureLoss n src tgt p2 :=
      fun n hn p2 q2 => detect_complete f src tgt hf n p2 q2
    cases items <;> cases not1 <;>
      (simp only [featureUsePaths, List.mem_append, List.mem_flatten, List.mem_map,
         List.mem_attach, true_and, mem_ite_path] at hq
       simp only [detectSchemaFeatureLoss, List.mem_append, List.mem_flatten, List.mem_map,
         List.mem_attach, nodeFeatureWarnings, List.mem_filter, true_and,
         Bool.and_eq_true, Bool.not_eq_true']
       rcases hq with (((((((hq2 | hq2) | hq2) | hq2) | hq2) | hq2) | hq2) | hq2)
       · obtain ⟨hu, rfl⟩ := hq2
         exact Or.inl (Or.inl (Or.inl (Or.inl (Or.inl (Or.inl (Or.inl
           ⟨f, ⟨mem_allFeatures f, hu, hf⟩, rfl⟩))))))
       · obtain ⟨l, ⟨a, hl⟩, hql⟩ := hq2
         subst hl
         exact Or.inl (Or.inl (Or.inl (Or.inl (Or.inl (Or.inl (Or.inr
           ⟨_, ⟨a, rfl⟩, hrec a.1 a.2 _ q hql⟩))))))
       · first
         | exact absurd hq2 (List.not_mem_nil q)
         | exact Or.inl (Or.inl (Or.inl (Or.inl (Or.inl (Or.inr (hreci _ rfl _ q hq2))))))
       · obtain ⟨l, ⟨a, hl⟩, hql⟩ := hq2
         subst hl
         exact Or.inl (Or.inl (Or.inl (Or.inl (Or.inr
           ⟨_, ⟨a, rfl⟩, hrecd a.1 a.2 _ q hql⟩))))
       · obtain ⟨l, ⟨a, hl⟩, hql⟩ := hq2
         subst hl
         exact Or.inl (Or.inl (Or.inl (Or.inr
           ⟨_, ⟨a, rfl⟩, hreca a.1.2 (snd_mem_of_mem_enum a.2) _ q hql⟩)))
       · obtain ⟨l, ⟨a, hl⟩, hql⟩ := hq2
         subst hl
         exact Or.inl (Or.inl (Or.inr
           ⟨_, ⟨a, rfl⟩, hreco a.1.2 (snd_mem_of_mem_enum a.2) _ q hql⟩))
       · obtain ⟨l, ⟨a, hl⟩, hql⟩ := hq2
         subst hl
         exact Or.inl (Or.inr
           ⟨_, ⟨a, rfl⟩, hrecl a.1.2 (snd_mem_of_mem_enum a.2) _ q hql⟩)
       · first
         | exact absurd hq2 (List.not_mem_nil q)
         | exact Or.inr (hrecn _ rfl _ q hq2))
termination_by s => sizeOf s
decreasing_by
  all_goals first
    | (have h1 := List.sizeOf_lt_of_mem hx
       first
        | (cases x
           simp at h1 ⊢
           omega)
        | (simp at h1 ⊢
           omega))
    | (subst hi
       simp
       omega)
    | (subst hn
       simp
       omega)
    | (simp
       omega)

theorem mem_of_head?_eq {α : Type} {l : List α} {a : α} (h : l.head? = some a) : a ∈ l := by
  cases l with
  | nil => simp at h
  | cons x xs =>
    simp [List.head?] at h
    subst h
    exact List.mem_cons_self x xs

theorem toolDetect_complete (ct : CanonicalTool) (f : SchemaFeature) (src tgt : AdapterSig)
    (hf : tgt.supportsFeature f = false) :
    ∀ q ∈ toolFeatureUsePaths f ct,
      ({ feature := f, path := q, fromAdapter := src.name, toAdapter := tgt.name } :
        FeatureLossWarning) ∈ detectFeatureLoss ct src tgt := by
  intro q hq
  simp only [toolFeatureUsePaths, List.mem_append] at hq
  simp only [detectFeatureLoss, List.mem_append]
  cases hI : ct.InputSchema <;> cases hO : ct.OutputSchema <;>
      simp only [hI, hO] at hq ⊢ <;>
    rcases hq with hq | hq <;>
    first
      | exact absurd hq (List.not_mem_nil q)
      | exact Or.inl (detect_complete f src tgt hf _ "" q hq)
      | exact Or.inr (detect_complete f src tgt hf _ "" q hq)

theorem toolDetect_sound (ct : CanonicalTool) (src tgt : AdapterSig) :
    ∀ w ∈ detectFeatureLoss ct src tgt, tgt.supportsFeature w.feature = false := by
  intro w hw
  simp only [detectFeatureLoss, List.mem_append] at hw
  cases hI : ct.InputSchema <;> cases hO : ct.OutputSchema <;>
      simp only [hI, hO] at hw <;>
    rcases hw with hw | hw <;>
    first
      | exact absurd hw (List.not_mem_nil w)
      | exact detect_sound src tgt _ "" w hw

/-- A canonical tool whose input schema uses anyOf at the root and nothing
else: the witness input for the feature-loss claim. -/
def c2SchemaChild : JSONSchema := .mk {} [] [] none [] [] [] none

def c2Schema : JSONSchema := .mk {} [] [] none [c2SchemaChild] [] [] none

def c2Tool : CanonicalTool := { Name := "t", InputSchema := some c2Schema }

/-- C2: for every canonical tool, every catalog feature used somewhere in
its input or output schema, and every source/target adapter pair where the
target does not support the feature, detectFeatureLoss emits a warning
carrying the feature, the source and target adapter names, and the path of
the first tree-traversal location using the feature (the head of the use
paths); and for a feature the target supports, no emitted warning names it. -/
theorem C2_feature_loss_warnings (ct : CanonicalTool) (f : SchemaFeature)
    (src tgt : AdapterSig) :
    (∀ q, (toolFeatureUsePaths f ct).head? = some q → tgt.supportsFeature f = false →
      ({ feature := f, path := q, fromAdapter := src.name, toAdapter := tgt.name } :
        FeatureLossWarning) ∈ detectFeatureLoss ct src tgt)
    ∧ (tgt.supportsFeature f = true →
        ∀ w ∈ detectFeatureLoss ct src tgt, w.feature ≠ f) := by
  constructor
  · intro q hq hf
    exact toolDetect_complete ct f src tgt hf q (mem_of_head?_eq hq)
  · intro hsupp w hw hwf
    have hfalse := toolDetect_sound ct src tgt w hw
    rw [hwf, hsupp] at hfalse
    exact absurd hfalse (by decide)

theorem C2_feature_loss_warnings_witness :
    ({ feature := SchemaFeature.anyOf, path := "", fromAdapter := "mcp",
       toAdapter := "openai" } : FeatureLossWarning) ∈
      detectFeatureLoss c2Tool mcpSig openAISig :=
  (C2_feature_loss_warnings c2Tool SchemaFeature.anyOf mcpSig openAISig).1 ""
    (by simp [c2Tool, c2Schema, c2SchemaChild, toolFeatureUsePaths, featureUsePaths,
          usesFeature, joinJSONPath, indexPath])
    rfl

end ToolFoundation
